import Mathlib

/-!
Shallow embedding of the wurloLanding placement-assessment pipeline.

The definitions below are translated from the JavaScript source of the
repository:
  * `src/routes/onboardingRoutes.js` — the `POST /onboarding/answer` route
    (attempt state machine: validation, grading, answer persistence,
    completion detection, summary invocation);
  * `src/services/textAnswerEvaluator.js` (in `src/unnamed/part_017`) —
    free-text judging via the generation client;
  * the placement test generation service (`generateAndStorePlacementTest`,
    `transformQuestion`, …) concatenated inside `src/services/authService.js`;
  * `summarizePlacementResults` (three-stage plan synthesizer) inside
    `src/services/geminiClient.js`;
  * migration `004_add_unique_constraint_placement_attempt_questions.sql`,
    which adds the UNIQUE (attempt_id, question_id) constraint on
    `placement_attempt_questions`.

JavaScript `null`/`undefined` values are modelled as `Option` types; JS
string truthiness (`""` is falsy) is modelled by `truthyStr`.  Calls to the
external generation provider are modelled by oracle parameters describing
the outcome of each call (a transport error, or a reply together with its
parse result): the code under study only branches on those outcomes.
-/

set_option maxRecDepth 10000

namespace Wurlo

/-- Whitespace characters for JS `String.prototype.trim` (the source only ever
trims ASCII whitespace). -/
def isWsChar (c : Char) : Bool :=
  c == ' ' || c == '\t' || c == '\n' || c == '\r' ||
  c == '\x0b' || c == '\x0c'

/-- JS `value.trim()`, defined structurally over the character list so that
concrete inputs evaluate inside the kernel. -/
def jsTrim (s : String) : String :=
  String.mk (((s.data.dropWhile isWsChar).reverse.dropWhile isWsChar).reverse)

/-- JS `value.toLowerCase()` (ASCII, which is all the source compares). -/
def jsToLower (s : String) : String :=
  String.mk (s.data.map Char.toLower)

/-- JS truthiness of a nullable string: `null`/`undefined` and `""` are falsy. -/
def truthyStr (s : Option String) : Bool :=
  match s with
  | some t => t != ""
  | none => false

/-- The characters accepted by the `[A-D]` character class with the `i` flag. -/
def isChoiceChar (c : Char) : Bool :=
  c == 'A' || c == 'B' || c == 'C' || c == 'D' ||
  c == 'a' || c == 'b' || c == 'c' || c == 'd'

/-- `normalizeChoiceLetter` from `src/routes/onboardingRoutes.js` (lines 138-143):
trim the raw value; `raw.match(/^[A-D]/i)` succeeds exactly when the first
character is one of A-D (either case) and yields that character; otherwise
`raw.match(/([A-D])/i)` yields the first A-D character anywhere in the string;
otherwise the result is `raw.charAt(0).toUpperCase()` (the empty string when
`raw` is empty). -/
def normalizeChoiceLetter (value : String) : String :=
  let raw := jsTrim value
  match raw.data with
  | [] => ""
  | c :: rest =>
    if isChoiceChar c then String.mk [c.toUpper]
    else
      match (c :: rest).find? isChoiceChar with
      | some d => String.mk [d.toUpper]
      | none => String.mk [c.toUpper]

/-- `sanitizeString` from the text answer evaluator: trim a possibly-nullish
string and coerce empty results to null. -/
def sanitizeString (v : Option String) : Option String :=
  match v with
  | none => none
  | some s =>
    let t := jsTrim s
    if t.length > 0 then some t else none

/-- The fields of the judge's JSON reply that `evaluateTextAnswer` inspects.
`isCorrectField` is `some b` exactly when the parsed object's `is_correct`
field exists and is a boolean (the `typeof parsed.is_correct === 'boolean'`
check); a missing or non-boolean field is `none`. -/
structure ParsedJudge where
  isCorrectField : Option Bool
  idealAnswerField : Option String
  feedbackField : Option String
deriving DecidableEq, Repr

/-- Outcome of one judge call: the transport threw, or it replied and the
reply either failed JSON extraction (`replied none`) or parsed to an object. -/
inductive JudgeOutcome where
  | threw
  | replied (parsed : Option ParsedJudge)
deriving DecidableEq, Repr

/-- Result object of `evaluateTextAnswer`: `isCorrect` is `none` when the
evaluation failed (the function documents `boolean | null`). -/
structure EvalResult where
  isCorrect : Option Bool
  idealAnswer : Option String
  feedback : Option String
deriving DecidableEq, Repr

/-- `evaluateTextAnswer` from `src/unnamed/part_017`: on a thrown transport
error or an unparseable reply it returns
`{ isCorrect: null, idealAnswer: referenceAnswer ?? null, feedback: null }`;
on a parsed reply it uses the boolean `is_correct` field verbatim (else null),
`sanitizeString(ideal_answer) ?? referenceAnswer ?? null`, and
`sanitizeString(feedback)`.  It never throws. -/
def evaluateTextAnswer (referenceAnswer : Option String) (outcome : JudgeOutcome) :
    EvalResult :=
  match outcome with
  | .threw => ⟨none, referenceAnswer, none⟩
  | .replied none => ⟨none, referenceAnswer, none⟩
  | .replied (some p) =>
    ⟨p.isCorrectField,
     match sanitizeString p.idealAnswerField with
     | some t => some t
     | none => referenceAnswer,
     sanitizeString p.feedbackField⟩

/-! ## Data model (relational rows read and written by the answer route) -/

/-- Question `type` column: the values the pipeline distinguishes. -/
inductive QType where
  | multiple_choice
  | text
  | scenario
deriving DecidableEq, Repr

/-- A `placement_questions` row as read by the answer route
(`SELECT id, test_id, type, correct_answer, question_text, explanation`). -/
structure Question where
  id : Nat
  testId : Nat
  qtype : QType
  correctAnswer : Option String
  questionText : String
  explanation : Option String
deriving DecidableEq, Repr

/-- A `placement_attempts` row as read by the answer route
(`SELECT id, user_id, test_id, completed`). -/
structure Attempt where
  id : Nat
  userId : String
  testId : Nat
  completed : Bool
deriving DecidableEq, Repr

/-- A `placement_attempt_questions` row (one AnswerRecord).  The `is_correct`
column is nullable in the schema, hence `Option Bool`. -/
structure AnswerRow where
  id : Nat
  attemptId : Nat
  questionId : Nat
  userResponse : Option String
  isCorrect : Option Bool
  idealAnswer : Option String
  feedback : Option String
deriving DecidableEq, Repr

/-- The relational store the answer route touches.  `nextAnswerId` models the
auto-increment id sequence of `placement_attempt_questions`. -/
structure Store where
  attempts : List Attempt
  questions : List Question
  answers : List AnswerRow
  nextAnswerId : Nat
deriving DecidableEq, Repr

/-- `SELECT COUNT(*) FROM placement_questions WHERE test_id = ?`. -/
def countTotal (s : Store) (testId : Nat) : Nat :=
  (s.questions.filter (fun q => q.testId == testId)).length

/-- `SELECT COUNT(*) FROM placement_attempt_questions WHERE attempt_id = ?`. -/
def countAnswered (s : Store) (attemptId : Nat) : Nat :=
  (s.answers.filter (fun r => r.attemptId == attemptId)).length

/-! ## Answer persistence micro-operations

The route persists an answer in two storage round trips: a `SELECT id ...
WHERE attempt_id = ? AND question_id = ? LIMIT 1` (`answerCheck`) followed by
either an `UPDATE ... WHERE id = ?` or an `INSERT` (`answerWrite`).  Since
migration 004 the table carries `UNIQUE (attempt_id, question_id)`, so the
insert is rejected atomically when a row with the same key exists
(`answerInsert`). -/

inductive DbError where
  | uniqueViolation
deriving DecidableEq, Repr

/-- The values the route binds into the UPDATE / INSERT statements.  For a
`text` question the statements carry the `ideal_answer` and
`evaluation_feedback` columns as well (`isText`). -/
structure WritePayload where
  userResponse : Option String
  isCorrect : Option Bool
  evalIdeal : Option String
  evalFeedback : Option String
  isText : Bool
deriving DecidableEq, Repr

/-- Effect of the route's UPDATE statement on the targeted row: text questions
update all four value columns, other types only `user_response`/`is_correct`. -/
def applyAnswerUpdate (row : AnswerRow) (p : WritePayload) : AnswerRow :=
  if p.isText then
    { row with userResponse := p.userResponse, isCorrect := p.isCorrect,
               idealAnswer := p.evalIdeal, feedback := p.evalFeedback }
  else
    { row with userResponse := p.userResponse, isCorrect := p.isCorrect }

/-- The row built by the route's INSERT statement: for non-text questions the
`ideal_answer`/`evaluation_feedback` columns are not in the column list and
default to NULL. -/
def newAnswerRow (id attemptId questionId : Nat) (p : WritePayload) : AnswerRow :=
  { id := id, attemptId := attemptId, questionId := questionId,
    userResponse := p.userResponse, isCorrect := p.isCorrect,
    idealAnswer := if p.isText then p.evalIdeal else none,
    feedback := if p.isText then p.evalFeedback else none }

/-- `SELECT id FROM placement_attempt_questions WHERE attempt_id = ? AND
question_id = ? LIMIT 1`. -/
def answerCheck (rows : List AnswerRow) (attemptId questionId : Nat) : Option Nat :=
  (rows.find? (fun r => r.attemptId == attemptId && r.questionId == questionId)).map
    (fun r => r.id)

/-- INSERT under migration 004's `UNIQUE (attempt_id, question_id)` constraint:
the store rejects a duplicate key atomically instead of creating a second
row. -/
def answerInsert (rows : List AnswerRow) (row : AnswerRow) :
    Except DbError (List AnswerRow) :=
  if rows.any (fun r => r.attemptId == row.attemptId && r.questionId == row.questionId)
  then .error .uniqueViolation
  else .ok (rows ++ [row])

/-- The route's persistence step (lines 215-245 of onboardingRoutes.js):
UPDATE when the earlier SELECT found a row id, otherwise INSERT.  The check
result is a parameter because it was read in a separate, earlier query — this
is the application-level check-then-insert pattern. -/
def answerWrite (rows : List AnswerRow) (attemptId questionId nextId : Nat)
    (check : Option Nat) (p : WritePayload) : Except DbError (List AnswerRow) :=
  match check with
  | some rid => .ok (rows.map (fun r => if r.id == rid then applyAnswerUpdate r p else r))
  | none => answerInsert rows (newAnswerRow nextId attemptId questionId p)

/-- Modelled from the spec: the "atomic storage-level unique-constrained
upsert" (spec §4.2 step 4 and §9: "a single atomic conditional
insert-or-update at the storage boundary, keyed by the unique pair") that the
spec claims is the persistence mechanism.  It is one total storage operation:
it never fails and merges a duplicate into the existing row.  It exists only
to be compared with `answerWrite`, the mechanism the route actually
implements; it is not part of the source. -/
def upsertAnswer (rows : List AnswerRow) (attemptId questionId nextId : Nat)
    (p : WritePayload) : List AnswerRow :=
  match rows.find? (fun r => r.attemptId == attemptId && r.questionId == questionId) with
  | some row => rows.map (fun r => if r.id == row.id then applyAnswerUpdate r p else r)
  | none => rows ++ [newAnswerRow nextId attemptId questionId p]

/-! ## Grading (route lines 172-209) -/

/-- Output of the grading phase of the route: the local variables
`userResponse`, `isCorrect`, `evaluationIdealAnswer`, `evaluationFeedback`,
the (possibly backfilled) question table, and how many generation-client
judge calls were made. -/
structure GradeOut where
  userResponse : Option String
  isCorrect : Option Bool
  evalIdeal : Option String
  evalFeedback : Option String
  questions : List Question
  evalCalls : Nat
deriving Repr

/-- Grading phase of the answer route.  Skip: `response=null`,
`isCorrect=false`, no evaluator call.  Multiple choice: normalize the letter,
keep it only if it is one of A-D, and set
`isCorrect = correct_answer ? (userResponse === correct_answer) : null`
(`null` — not `false` — when the stored correct answer is null or empty).
Text/scenario: trim the response, call the judge, collapse a null verdict to
`false`, and lazily backfill the question's `correct_answer` when the
evaluation carried a (truthy) ideal answer and the stored reference is null
or blank. -/
def gradeAnswer (qs : List Question) (q : Question) (response : Option String)
    (skip : Bool) (judge : JudgeOutcome) : GradeOut :=
  if skip then
    ⟨none, some false, none, none, qs, 0⟩
  else if q.qtype == .multiple_choice then
    let choice := normalizeChoiceLetter (response.getD "")
    let userResponse :=
      if choice == "A" || choice == "B" || choice == "C" || choice == "D"
      then some choice else none
    let isCorrect : Option Bool :=
      match q.correctAnswer with
      | some t => if t == "" then none else some (userResponse == some t)
      | none => none
    ⟨userResponse, isCorrect, none, none, qs, 0⟩
  else
    let userResponse := some (jsTrim (response.getD ""))
    let ev := evaluateTextAnswer q.correctAnswer judge
    let isCorrect : Option Bool := some (ev.isCorrect.getD false)
    let evalIdeal := ev.idealAnswer
    let evalFeedback := ev.feedback
    let doBackfill := truthyStr evalIdeal &&
      (match q.correctAnswer with
       | none => true
       | some t => jsTrim t == "")
    let qs' :=
      if doBackfill then
        qs.map (fun qq => if qq.id == q.id then { qq with correctAnswer := evalIdeal } else qq)
      else qs
    ⟨userResponse, isCorrect, evalIdeal, evalFeedback, qs', 1⟩

/-! ## The answer route (`POST /onboarding/answer`) -/

inductive RouteError where
  | badRequestResponseRequired
  | attemptNotFound
  | forbidden
  | questionNotFound
  | questionTestMismatch
  | storageError (e : DbError)
deriving DecidableEq, Repr

/-- One row of the completion `results` payload (the LEFT JOIN of
`placement_questions` with `placement_attempt_questions`). -/
structure SummaryRow where
  questionId : Nat
  questionText : String
  qtype : QType
  correctAnswer : Option String
  userResponse : Option String
  isCorrect : Option Bool
  idealAnswer : Option String
  feedback : Option String
deriving DecidableEq, Repr

/-- The JSON body the route returns on success. -/
structure AnswerResp where
  isCorrect : Option Bool
  completed : Bool
  answered : Nat
  total : Nat
  results : Option (List SummaryRow)
  placementSummary : Option String
  synthInvoked : Bool
  evalCalls : Nat
  evalIdealAnswer : Option String
  evalFeedback : Option String
deriving DecidableEq, Repr

/-- Insertion by ascending question id, modelling the `ORDER BY pq.id` of the
results query. -/
def insertByQid (q : Question) : List Question → List Question
  | [] => [q]
  | x :: xs => if q.id ≤ x.id then q :: x :: xs else x :: insertByQid q xs

def sortByQid (l : List Question) : List Question :=
  l.foldr insertByQid []

/-- The results query of the completion block: every question of the test
(ordered by id) left-joined with its answer row for the attempt. -/
def buildResults (s : Store) (testId attemptId : Nat) : List SummaryRow :=
  (sortByQid (s.questions.filter (fun q => q.testId == testId))).map (fun q =>
    match s.answers.find? (fun r => r.questionId == q.id && r.attemptId == attemptId) with
    | some r => ⟨q.id, q.questionText, q.qtype, q.correctAnswer,
                 r.userResponse, r.isCorrect, r.idealAnswer, r.feedback⟩
    | none => ⟨q.id, q.questionText, q.qtype, q.correctAnswer, none, none, none, none⟩)

/-- The tail of the answer route after the answer row has been written:
re-read both counts from the post-write store, compute
`completed = total > 0 && answered >= total`, flip the attempt's flag when it
was still false, and when `completed` holds build the results payload and
invoke the plan synthesizer. -/
def finishSubmit (attempt : Attempt) (attemptId : Nat) (g : GradeOut)
    (answers' : List AnswerRow) (nextId : Nat) (attempts0 : List Attempt)
    (synthOutcome : Option String) : Store × AnswerResp :=
  let s' : Store := { attempts := attempts0, questions := g.questions,
                      answers := answers', nextAnswerId := nextId }
  let total := countTotal s' attempt.testId
  let answered := countAnswered s' attemptId
  let completed : Bool := decide (0 < total) && decide (total ≤ answered)
  let attempts' :=
    if completed && !attempt.completed then
      s'.attempts.map (fun a =>
        if a.id == attempt.id then { a with completed := true } else a)
    else s'.attempts
  let s'' : Store := { s' with attempts := attempts' }
  let results := if completed then some (buildResults s'' attempt.testId attemptId) else none
  let placementSummary := if completed then synthOutcome else none
  (s'',
   { isCorrect := g.isCorrect, completed := completed,
     answered := answered, total := total,
     results := results, placementSummary := placementSummary,
     synthInvoked := completed, evalCalls := g.evalCalls,
     evalIdealAnswer := g.evalIdeal, evalFeedback := g.evalFeedback })

/-- The route's `hasTypedResponse` check: the response is present and not
blank after trimming. -/
def hasTypedResponse (response : Option String) : Bool :=
  match response with
  | some r => jsTrim r != ""
  | none => false

/-- `POST /onboarding/answer` (lines 107-330 of onboardingRoutes.js), after
the numeric-id parsing.  `judge` is the outcome of the (at most one)
generation-client judge call; `synthOutcome` is the outcome of
`summarizePlacementResults` if it were invoked in this request (`none` models
a throw, which the route catches and turns into a null summary).

Steps: validate that a non-blank response is present unless skipping; load
the attempt (404 / 403); load the question (404 / 400 mismatch); grade;
check-then-write the answer row; re-read both counts from storage;
`completed = total > 0 && answered >= total`; flip the attempt's `completed`
flag when it was still false; when `completed` holds (whether or not it just
became true) build `results` and invoke the plan synthesizer. -/
def submitAnswer (s : Store) (userId : String) (attemptId questionId : Nat)
    (response : Option String) (skip : Bool) (judge : JudgeOutcome)
    (synthOutcome : Option String) : Except RouteError (Store × AnswerResp) :=
  if !skip && !hasTypedResponse response then .error .badRequestResponseRequired
  else
    match s.attempts.find? (fun a => a.id == attemptId) with
    | none => .error .attemptNotFound
    | some attempt =>
      if attempt.userId != userId then .error .forbidden
      else
        match s.questions.find? (fun q => q.id == questionId) with
        | none => .error .questionNotFound
        | some question =>
          if question.testId != attempt.testId then .error .questionTestMismatch
          else
            let g := gradeAnswer s.questions question response skip judge
            let p : WritePayload :=
              ⟨g.userResponse, g.isCorrect, g.evalIdeal, g.evalFeedback,
               question.qtype == .text⟩
            let check := answerCheck s.answers attemptId questionId
            match answerWrite s.answers attemptId questionId s.nextAnswerId check p with
            | .error e => .error (.storageError e)
            | .ok answers' =>
              .ok (finishSubmit attempt attemptId g answers'
                    (if check.isSome then s.nextAnswerId else s.nextAnswerId + 1)
                    s.attempts synthOutcome)

/-! ## Test generation service (`generateAndStorePlacementTest` and helpers,
from the placement test service inside `src/services/authService.js`) -/

/-- A question object as parsed from the generator's JSON.  `none` fields are
JS `null`/`undefined`; an option entry that is not a string is `none` (the
`typeof option === 'string'` check maps it to `''`). -/
structure RawQuestion where
  id : Option Nat
  question : Option String
  qtype : Option String
  options : Option (List (Option String))
  correct_answer : Option String
  explanation : Option String
  assesses : Option String
deriving DecidableEq, Repr

/-- `normalizeCorrectAnswer`: null/undefined stays null; blank after trim
becomes null; the literal strings "null", "n/a", "none" (case-insensitive)
become null; anything else is the trimmed string. -/
def normalizeCorrectAnswer (v : Option String) : Option String :=
  match v with
  | none => none
  | some s =>
    let t := jsTrim s
    if t == "" then none
    else
      let lower := jsToLower t
      if lower == "null" || lower == "n/a" || lower == "none" then none
      else some t

/-- The `normalizedOptions` computation of `transformQuestion`: non-array
options become `[]`; each entry is trimmed if a string (else `''`) and empty
entries are filtered out. -/
def normalizedOptionsOf (q : RawQuestion) : List String :=
  match q.options with
  | none => []
  | some opts =>
    (opts.map (fun o =>
      match o with
      | some s => jsTrim s
      | none => "")).filter (fun o => o.length > 0)

/-- The `sanitized` object built by `transformQuestion` (returned to the
client). -/
structure TQSanitized where
  id : Nat
  question : String
  rtype : String
  options : Option (List String)
  correct_answer : Option String
  explanation : String
  assesses : Option String
deriving DecidableEq, Repr

/-- The `record` object built by `transformQuestion` (persisted to the
question table). -/
structure TQRecord where
  conceptTag : Option String
  questionText : String
  rtype : String
  options : Option (List String)
  correctAnswer : Option String
  explanation : Option String
deriving DecidableEq, Repr

def ALLOWED_TYPES : List String := ["multiple_choice", "text", "scenario"]

/-- The type computation of `transformQuestion`: `scenario` passes through; a
`multiple_choice` declaration survives only with ≥ 2 sanitized options and a
normalized correct answer; everything else (including a coerced
multiple-choice declaration) becomes `text`; the `ALLOWED_TYPES` membership
check is the final guard of the source. -/
def tqType (q : RawQuestion) : String :=
  let rawType := jsToLower (q.qtype.getD "")
  let type0 : String :=
    if rawType == "scenario" then "scenario"
    else if rawType == "multiple_choice" && decide (2 ≤ (normalizedOptionsOf q).length)
            && (normalizeCorrectAnswer q.correct_answer).isSome then "multiple_choice"
    else "text"
  if ALLOWED_TYPES.contains type0 then type0 else "text"

/-- The `sanitized` object of `transformQuestion`. -/
def tqSanitized (q : RawQuestion) (index : Nat) : TQSanitized :=
  { id := q.id.getD (index + 1),
    question := jsTrim (q.question.getD ""),
    rtype := tqType q,
    options := if tqType q == "multiple_choice" then some (normalizedOptionsOf q) else none,
    correct_answer := if tqType q == "multiple_choice" then normalizeCorrectAnswer q.correct_answer else none,
    explanation := jsTrim (q.explanation.getD ""),
    assesses := q.assesses }

/-- The `record` object of `transformQuestion` (persisted to storage). -/
def tqRecord (q : RawQuestion) (index : Nat) : TQRecord :=
  { conceptTag := (tqSanitized q index).assesses,
    questionText := (tqSanitized q index).question,
    rtype := tqType q,
    options := if tqType q == "multiple_choice" then some (normalizedOptionsOf q) else none,
    correctAnswer := (tqSanitized q index).correct_answer,
    explanation := if (tqSanitized q index).explanation == "" then none
                   else some ((tqSanitized q index).explanation) }

/-- `transformQuestion(question, index)`: null question is dropped; a
question with empty (trimmed) question text is dropped; otherwise the
sanitized/record pair is produced. -/
def transformQuestion (question : Option RawQuestion) (index : Nat) :
    Option (TQSanitized × TQRecord) :=
  match question with
  | none => none
  | some q =>
    if (tqRecord q index).questionText == "" then none
    else some (tqSanitized q index, tqRecord q index)

/-- The payload parsed from one generator reply: `none` models `parseJsonSafe`
returning null, `questions = none` models a missing / non-array `questions`
field. -/
structure RawPayload where
  topic : Option String
  questions : Option (List (Option RawQuestion))
deriving DecidableEq, Repr

/-- `isValidPlacement`: the parsed payload must exist and contain a non-empty
`questions` array. -/
def isValidPlacement (candidate : Option RawPayload) : Bool :=
  match candidate with
  | none => false
  | some c =>
    match c.questions with
    | none => false
    | some l => decide (0 < l.length)

/-- The question list after `normalizePlacement`: each entry gets
`id := question?.id ?? index + 1` (a null entry spreads to an object holding
only the id). -/
def normalizePlacementQuestions (l : List (Option RawQuestion)) : List RawQuestion :=
  (l.enum.map (fun qi =>
    match qi.2 with
    | some q => { q with id := some (q.id.getD (qi.1 + 1)) }
    | none => { id := some (qi.1 + 1), question := none, qtype := none,
                options := none, correct_answer := none, explanation := none,
                assesses := none }))

/-- One generation-client call of the placement test service: the prompt used
and whether `response_format = json_object` was set (`enforceJson`, true only
on the retry). -/
structure GenCall where
  prompt : String
  enforceJson : Bool
deriving DecidableEq, Repr

/-- The "return only valid JSON" suffix appended to the base prompt for the
retry attempt. -/
def strictSuffix : String :=
  "\n\nIMPORTANT: Return only valid JSON that matches the OUTPUT FORMAT exactly. No commentary."

inductive GenError where
  | generationFailed
  | noUsableQuestions
deriving DecidableEq, Repr

/-- The rows `generateAndStorePlacementTest` persists, in order: the test
session row, then one row per validated question (in generation order), then
the api-usage row. -/
inductive DbWrite where
  | sessionInsert (topic : String) (totalQuestions : Nat)
  | questionInsert (record : TQRecord)
  | apiUsageInsert
deriving DecidableEq, Repr

/-- Observable effects of one `generateAndStorePlacementTest` run: the
generation-client calls made, every row written to storage, and the error
thrown (if any). -/
structure GenRun where
  calls : List GenCall
  persisted : List DbWrite
  error : Option GenError
deriving DecidableEq, Repr

/-- JS `candidate.topic || fallbackTopic || 'Unknown topic'`. -/
def normalizeTopic (t : Option String) (fallbackTopic : Option String) : String :=
  if truthyStr t then t.getD ""
  else if truthyStr fallbackTopic then fallbackTopic.getD "" else "Unknown topic"

/-- `generateAndStorePlacementTest` (persistence-relevant control flow).
`r1` is the parse result of the first generation call (base prompt, no JSON
mode); `r2` of the retry (stricter prompt, JSON mode), consulted only when
the first reply is not a valid placement.  If neither reply is valid the
operation throws before any row is written; an empty validated-question list
also throws before any row is written; otherwise the session row, the
question rows (in order) and the usage row are persisted. -/
def generateAndStorePlacementTest (basePrompt : String) (topic : Option String)
    (r1 r2 : Option RawPayload) : GenRun :=
  let call1 : GenCall := ⟨basePrompt, false⟩
  let call2 : GenCall := ⟨basePrompt ++ strictSuffix, true⟩
  let calls := if isValidPlacement r1 then [call1] else [call1, call2]
  let chosen : Option RawPayload :=
    if isValidPlacement r1 then r1
    else if isValidPlacement r2 then r2
    else none
  match chosen with
  | none => { calls := calls, persisted := [], error := some .generationFailed }
  | some c =>
    let questions := normalizePlacementQuestions (c.questions.getD [])
    let questionTransforms :=
      (questions.enum.map (fun qi => transformQuestion (some qi.2) qi.1)).filterMap id
    if questionTransforms.isEmpty then
      { calls := calls, persisted := [], error := some .noUsableQuestions }
    else
      { calls := calls,
        persisted :=
          [DbWrite.sessionInsert (normalizeTopic c.topic topic) questionTransforms.length]
          ++ questionTransforms.map (fun t => DbWrite.questionInsert t.2)
          ++ [DbWrite.apiUsageInsert],
        error := none }

/-! ## Plan synthesizer (`summarizePlacementResults` in
`src/services/geminiClient.js`)

Each of the three stages issues one generation-client call; the outcome of
each call is an oracle parameter (`StageOutcome`): the call threw, or it
returned a response whose extracted text is `none` (null) or a string.  The
spec rules prompt wording out of scope, so prompts are not modelled; the
definitions below capture the control flow the claims are about. -/

/-- Outcome of one generation-client stage call: a thrown transport error, or
a reply with its `extractTextFromAIResponse` result (`none` models null). -/
inductive StageOutcome where
  | threw
  | ok (raw : Option String)
deriving DecidableEq, Repr

/-- `stringOr(value, fallback)` from geminiClient.js: a string whose trim is
non-empty yields its trim, anything else the fallback. -/
def stringOr (v : Option String) (fallback : String) : String :=
  match v with
  | some s =>
    let t := jsTrim s
    if t.length > 0 then t else fallback
  | none => fallback

/-- The percentage interpolated into the Stage-1 fallback template:
`Math.round((correct / total) * 100)` over the sanitized responses, rendered
as `NaN` when there are no responses (0/0). -/
def scoreText (responses : List (Option Bool)) : String :=
  let len := responses.length
  let correct := (responses.filter (fun r => r == some true)).length
  if len == 0 then "NaN" else toString ((200 * correct + len) / (2 * len))

/-- The minimal local framework used when Stage 1 throws (the template
literal assigned to `frameworkResponse` in the catch branch). -/
def fallbackFramework (safeGoal safeExperience : String)
    (responses : List (Option Bool)) : String :=
  "## Learning Plan Summary\n\n**Goal:** " ++ safeGoal ++
  "\n**Current Level:** " ++ safeExperience ++
  "\n**Assessment Score:** " ++ scoreText responses ++
  "%\n\nYour personalized learning plan has been generated based on your placement test results."

/-- `'\x7b\x7blearning_plan_placeholder\x7d\x7d'` — the Stage-1 marker where
the learning plan belongs. -/
def shortPlaceholder : String := "\x7b\x7blearning_plan_placeholder\x7d\x7d"

/-- `'## 📚 3. Learning Plan\n' + shortPlaceholder` — the block form tried
first by the stitching step. -/
def blockPlaceholder : String := "## 📚 3. Learning Plan\n" ++ shortPlaceholder

/-- Replace the first occurrence of `pat` in a character list by `repl`;
`none` when `pat` does not occur.  This is JS
`String.prototype.includes` + first-occurrence `replace` with a string
pattern (expansion of `$`-sequences in the replacement is not exercised by
the placeholders involved and is not modelled). -/
def replaceFirstList (pat repl : List Char) : List Char → Option (List Char)
  | [] => if pat.isPrefixOf ([] : List Char) then some repl else none
  | c :: rest =>
    if pat.isPrefixOf (c :: rest) then some (repl ++ (c :: rest).drop pat.length)
    else
      match replaceFirstList pat repl rest with
      | some r => some (c :: r)
      | none => none

/-- The stitching step: when Stage 3 produced (or fell back to) non-empty
text, substitute it for the first occurrence of the block placeholder, else
of the short placeholder, else append it after Stage 1's document; when
Stage 3 text is empty the combined document is Stage 1's document as is. -/
def stitchDocuments (stage1Raw stage3Raw : String) : String :=
  if stage3Raw == "" then stage1Raw
  else
    match replaceFirstList blockPlaceholder.data stage3Raw.data stage1Raw.data with
    | some r => String.mk r
    | none =>
      match replaceFirstList shortPlaceholder.data stage3Raw.data stage1Raw.data with
      | some r => String.mk r
      | none => stage1Raw ++ "\n\n" ++ stage3Raw

/-- The synthesis-relevant pieces of `summarizePlacementResults`' behavior:
the raw text held for each stage, whether the Stage-3 call was attempted,
the stitched document, and the per-stage completion flags returned in
`progress`. -/
structure SynthRun where
  stage1Raw : String
  stage2Raw : String
  stage3Raw : String
  stage3Attempted : Bool
  combinedDocument : String
  stage1Completed : Bool
  stage2Completed : Bool
  stage3Completed : Bool
deriving DecidableEq, Repr

/-- `summarizePlacementResults` (stage control flow, lines 461-762 of the
concatenated geminiClient.js):
Stage 1: on success `stage1RawResponse = rawContent || ''`; on a throw the
local fallback template is used.  Stage 2: on success
`stage2RawResponse = rawContent || ''` and `stageStructure = rawContent`; on
a throw the structure stays null.  Stage 3 runs only when `stageStructure`
is truthy; on success `stage3RawResponse = rawContent || ''`; on a throw it
falls back to `stage2RawResponse`.  The documents are then stitched, and the
`progress` flags are the JS truthiness of the three stored stage texts. -/
def summarizePlacementResults (goal experience : Option String)
    (responses : List (Option Bool)) (o1 o2 o3 : StageOutcome) : SynthRun :=
  let safeGoal := stringOr goal "Clarify learner goal"
  let safeExperience := stringOr experience "Not provided"
  let stage1Raw :=
    match o1 with
    | .ok r => r.getD ""
    | .threw => fallbackFramework safeGoal safeExperience responses
  let stage2 : String × Option String :=
    match o2 with
    | .ok r => (r.getD "", r)
    | .threw => ("", none)
  let stage2Raw := stage2.1
  let stageStructure := stage2.2
  let stage3Attempted := truthyStr stageStructure
  let stage3Raw :=
    if stage3Attempted then
      match o3 with
      | .ok r => r.getD ""
      | .threw => stage2Raw
    else ""
  { stage1Raw := stage1Raw, stage2Raw := stage2Raw, stage3Raw := stage3Raw,
    stage3Attempted := stage3Attempted,
    combinedDocument := stitchDocuments stage1Raw stage3Raw,
    stage1Completed := stage1Raw != "",
    stage2Completed := stage2Raw != "",
    stage3Completed := stage3Raw != "" }

/-! ## Helper lemmas -/

/-- With a check read from the same snapshot that the write runs against, the
route's write step cannot hit the unique constraint: the UPDATE branch always
succeeds, and the INSERT branch is taken only when the check found no row. -/
theorem answerWrite_fresh_ok (rows : List AnswerRow) (aid qid nid : Nat) (p : WritePayload) :
    ∃ rows', answerWrite rows aid qid nid (answerCheck rows aid qid) p = .ok rows' := by
  unfold answerWrite answerCheck
  cases hfind : rows.find? (fun r => r.attemptId == aid && r.questionId == qid) with
  | some r => exact ⟨_, rfl⟩
  | none =>
    simp only [Option.map_none']
    unfold answerInsert
    have hany : rows.any (fun r => r.attemptId == (newAnswerRow nid aid qid p).attemptId
        && r.questionId == (newAnswerRow nid aid qid p).questionId) = false := by
      simp only [newAnswerRow]
      rw [List.any_eq_false]
      intro r hr
      have := List.find?_eq_none.mp hfind r hr
      simpa using this
    rw [hany]
    exact ⟨_, rfl⟩

/-- Forward characterization of a submit call that passes all validations:
it succeeds, and its output is `finishSubmit` of the graded and persisted
data. -/
theorem submitAnswer_ok_of (s : Store) (u : String) (A Q : Nat) (resp : Option String)
    (skip : Bool) (j : JudgeOutcome) (so : Option String) (attempt : Attempt) (question : Question)
    (ha : s.attempts.find? (fun a => a.id == A) = some attempt)
    (hu : attempt.userId = u)
    (hq : s.questions.find? (fun q => q.id == Q) = some question)
    (ht : question.testId = attempt.testId)
    (hv : (!skip && !hasTypedResponse resp) = false) :
    ∃ answers',
      answerWrite s.answers A Q s.nextAnswerId (answerCheck s.answers A Q)
        ⟨(gradeAnswer s.questions question resp skip j).userResponse,
         (gradeAnswer s.questions question resp skip j).isCorrect,
         (gradeAnswer s.questions question resp skip j).evalIdeal,
         (gradeAnswer s.questions question resp skip j).evalFeedback,
         question.qtype == .text⟩ = .ok answers'
      ∧ submitAnswer s u A Q resp skip j so
        = .ok (finishSubmit attempt A (gradeAnswer s.questions question resp skip j) answers'
               (if (answerCheck s.answers A Q).isSome then s.nextAnswerId else s.nextAnswerId + 1)
               s.attempts so) := by
  obtain ⟨rows', hw⟩ := answerWrite_fresh_ok s.answers A Q s.nextAnswerId
    ⟨(gradeAnswer s.questions question resp skip j).userResponse,
     (gradeAnswer s.questions question resp skip j).isCorrect,
     (gradeAnswer s.questions question resp skip j).evalIdeal,
     (gradeAnswer s.questions question resp skip j).evalFeedback,
     question.qtype == .text⟩
  refine ⟨rows', hw, ?_⟩
  unfold submitAnswer
  simp only [ha, hq, hv, hu, ht, hw, Bool.false_eq_true, if_false, bne_self_eq_false]

/-- Grading of a non-multiple-choice, non-skipped answer: the evaluator's
verdict is collapsed to a boolean (null becomes false), and the ideal answer
and feedback are passed through. -/
theorem gradeAnswer_not_mc (qs : List Question) (q : Question) (resp : Option String)
    (j : JudgeOutcome) (hne : q.qtype ≠ .multiple_choice) :
    (gradeAnswer qs q resp false j).isCorrect
        = some ((evaluateTextAnswer q.correctAnswer j).isCorrect.getD false)
    ∧ (gradeAnswer qs q resp false j).evalIdeal
        = (evaluateTextAnswer q.correctAnswer j).idealAnswer
    ∧ (gradeAnswer qs q resp false j).evalFeedback
        = (evaluateTextAnswer q.correctAnswer j).feedback
    ∧ (gradeAnswer qs q resp false j).evalCalls = 1 := by
  have hb : (q.qtype == QType.multiple_choice) = false := by
    simpa using hne
  unfold gradeAnswer
  simp [hb]

/-- The judge-relevant response fields of a free-text submit, for every judge
outcome. -/
theorem submitText_resp (s : Store) (u : String) (A Q : Nat) (resp : String) (so : Option String)
    (attempt : Attempt) (question : Question) (j : JudgeOutcome)
    (ha : s.attempts.find? (fun a => a.id == A) = some attempt)
    (hu : attempt.userId = u)
    (hqf : s.questions.find? (fun q => q.id == Q) = some question)
    (ht : question.testId = attempt.testId)
    (hqt : question.qtype ≠ .multiple_choice)
    (hr : jsTrim resp ≠ "") :
    Except.map (fun x => (x.2.isCorrect, x.2.evalIdealAnswer, x.2.evalFeedback))
      (submitAnswer s u A Q (some resp) false j so)
    = .ok (some ((evaluateTextAnswer question.correctAnswer j).isCorrect.getD false),
           (evaluateTextAnswer question.correctAnswer j).idealAnswer,
           (evaluateTextAnswer question.correctAnswer j).feedback) := by
  have hv : (!false && !hasTypedResponse (some resp)) = false := by
    simp [hasTypedResponse, hr]
  obtain ⟨answers', hw, hok⟩ := submitAnswer_ok_of s u A Q (some resp) false j so attempt question ha hu hqf ht hv
  rw [hok]
  obtain ⟨h1, h2, h3, _⟩ := gradeAnswer_not_mc s.questions question (some resp) j hqt
  simp [finishSubmit, Except.map, h1, h2, h3]

/-- Replacing a first occurrence with non-empty text never yields the empty
string. -/
theorem replaceFirstList_ne_nil (pat repl : List Char) (hrepl : repl ≠ [])
    (s r : List Char) (h : replaceFirstList pat repl s = some r) : r ≠ [] := by
  induction s with
  | nil =>
    unfold replaceFirstList at h
    split at h
    · cases h; exact hrepl
    · cases h
  | cons c rest ih =>
    unfold replaceFirstList at h
    split at h
    · cases h
      intro hnil
      exact hrepl (List.append_eq_nil.mp hnil).1
    · revert h
      cases hrec : replaceFirstList pat repl rest with
      | some r0 => intro h; cases h; simp
      | none => intro h; cases h

theorem String_mk_ne_empty (l : List Char) (h : l ≠ []) : String.mk l ≠ "" := by
  intro he
  apply h
  have : (String.mk l).data = ("" : String).data := by rw [he]
  simpa using this

theorem String_append_ne_empty_right (a b : String) (hb : b ≠ "") : a ++ b ≠ "" := by
  intro he
  apply hb
  have : (a ++ b).data = ("" : String).data := by rw [he]
  simp only [String.data_append] at this
  have := List.append_eq_nil.mp (by simpa using this)
  exact String.ext (by simpa using this.2)

/-- Stitching a non-empty Stage-1 document always yields a non-empty final
document. -/
theorem stitchDocuments_ne_empty (a b : String) (ha : a ≠ "") :
    stitchDocuments a b ≠ "" := by
  unfold stitchDocuments
  split
  · exact ha
  · rename_i hb
    have hbne : b ≠ "" := by simpa using hb
    have hrepl : b.data ≠ [] := by
      intro h; exact hbne (String.ext (by simpa using h))
    cases h1 : replaceFirstList blockPlaceholder.data b.data a.data with
    | some r =>
      simp only [h1]
      exact String_mk_ne_empty r (replaceFirstList_ne_nil _ _ hrepl _ _ h1)
    | none =>
      simp only [h1]
      cases h2 : replaceFirstList shortPlaceholder.data b.data a.data with
      | some r =>
        simp only [h2]
        exact String_mk_ne_empty r (replaceFirstList_ne_nil _ _ hrepl _ _ h2)
      | none =>
        simp only [h2]
        exact String_append_ne_empty_right _ _ hbne

/-- The Stage-1 fallback template is never empty. -/
theorem fallbackFramework_ne_empty (g e : String) (responses : List (Option Bool)) :
    fallbackFramework g e responses ≠ "" := by
  unfold fallbackFramework
  apply String_append_ne_empty_right
  decide

/-- A produced `transformQuestion` pair is exactly the sanitized/record pair,
and the question text was non-blank. -/
theorem transformQuestion_some_inv (q : RawQuestion) (index : Nat)
    (s : TQSanitized) (r : TQRecord)
    (htr : transformQuestion (some q) index = some (s, r)) :
    r = tqRecord q index ∧ s = tqSanitized q index
    ∧ jsTrim (q.question.getD "") ≠ "" := by
  unfold transformQuestion at htr
  cases hq : ((tqRecord q index).questionText == "") <;>
    simp only [hq, if_true, if_false, Bool.false_eq_true, ite_true, ite_false] at htr
  case true => cases htr
  case false =>
  have hp := Option.some.inj htr
  refine ⟨(congrArg Prod.snd hp).symm, (congrArg Prod.fst hp).symm, ?_⟩
  simpa [tqRecord, tqSanitized] using hq

/-- For a declared multiple-choice question the final type is decided by the
two sanitation conditions. -/
theorem tqType_of_mc (q : RawQuestion)
    (hmc : jsToLower (q.qtype.getD "") = "multiple_choice") :
    tqType q = if 2 ≤ (normalizedOptionsOf q).length
                  ∧ (normalizeCorrectAnswer q.correct_answer).isSome = true
               then "multiple_choice" else "text" := by
  unfold tqType
  rw [hmc]
  by_cases hb1 : 2 ≤ (normalizedOptionsOf q).length <;>
    cases hb2 : (normalizeCorrectAnswer q.correct_answer).isSome <;>
      simp [hb1, hb2, ALLOWED_TYPES]

/-- A final type of multiple-choice implies both sanitation conditions held. -/
theorem tqType_mc_inv (q : RawQuestion) (h : tqType q = "multiple_choice") :
    2 ≤ (normalizedOptionsOf q).length
    ∧ (normalizeCorrectAnswer q.correct_answer).isSome = true := by
  unfold tqType at h
  by_cases hb1 : 2 ≤ (normalizedOptionsOf q).length <;>
    cases hb2 : (normalizeCorrectAnswer q.correct_answer).isSome <;>
      cases hsc : (jsToLower (q.qtype.getD "") == "scenario") <;>
        cases hmcb : (jsToLower (q.qtype.getD "") == "multiple_choice") <;>
          simp_all [ALLOWED_TYPES]

/-! ## Concrete fixtures used by counterexamples and witnesses -/

/-- A store with one open attempt on a two-question test whose first question
is multiple choice with stored correct answer "B". -/
def mcStore : Store :=
  ⟨[⟨1, "u", 1, false⟩],
   [⟨1, 1, .multiple_choice, some "B", "Which option?", none⟩,
    ⟨2, 1, .text, none, "Explain", none⟩], [], 0⟩

/-- A store with one open attempt on a two-question test whose first question
is free text with stored reference answer "ref". -/
def txStore : Store :=
  ⟨[⟨1, "u", 1, false⟩],
   [⟨1, 1, .text, some "ref", "Explain X", none⟩,
    ⟨2, 1, .text, none, "More", none⟩], [], 0⟩

/-! ## Claim theorems -/

/-- Claim C4: `generateTest` calls the generator once with the base prompt;
when the parsed first reply lacks a non-empty questions array it retries
exactly once with the stricter "return JSON only" prompt and the JSON-mode
flag set; when both attempts fail validity the operation fails with
GenerationFailed and no row of any kind is persisted. -/
theorem C4_generator_retry (basePrompt : String) (topic : Option String)
    (r1 r2 : Option RawPayload) :
    (isValidPlacement r1 = true →
      (generateAndStorePlacementTest basePrompt topic r1 r2).calls = [⟨basePrompt, false⟩])
    ∧ (isValidPlacement r1 = false →
      (generateAndStorePlacementTest basePrompt topic r1 r2).calls
        = [⟨basePrompt, false⟩, ⟨basePrompt ++ strictSuffix, true⟩])
    ∧ (isValidPlacement r1 = false → isValidPlacement r2 = false →
      (generateAndStorePlacementTest basePrompt topic r1 r2).error = some .generationFailed
      ∧ (generateAndStorePlacementTest basePrompt topic r1 r2).persisted = []) := by
  refine ⟨?_, ?_, ?_⟩
  · intro h1
    unfold generateAndStorePlacementTest
    simp only [h1, if_true]
    split
    · rfl
    · split <;> rfl
  · intro h1
    unfold generateAndStorePlacementTest
    simp only [h1, Bool.false_eq_true, if_false]
    split
    · rfl
    · split <;> rfl
  · intro h1 h2
    unfold generateAndStorePlacementTest
    simp [h1, h2]

/-- Witness for C4: with both replies unparseable, the run makes two calls
(the second JSON-enforced), throws GenerationFailed, and persists nothing. -/
theorem C4_generator_retry_witness :
    (generateAndStorePlacementTest "base" none none none).error = some .generationFailed
    ∧ (generateAndStorePlacementTest "base" none none none).persisted = [] :=
  (C4_generator_retry "base" none none none).2.2 rfl rfl

/-- Claim C5 counterexample: when Stage 1 throws and falls back to the local
template, the returned `stage1_completed` flag is still `true`, so the
per-stage flags do not accurately distinguish a successful Stage 1 from a
fallen-back one, contrary to the claim. -/
theorem C5_flags_counterexample :
    (summarizePlacementResults (some "goal") (some "exp") [some true]
        .threw (.ok (some "S2")) (.ok (some "S3"))).stage1Completed = true
    ∧ (summarizePlacementResults (some "goal") (some "exp") [some true]
        .threw (.ok (some "S2")) (.ok (some "S3"))).stage1Raw
      = fallbackFramework "goal" "exp" [some true] := ⟨rfl, rfl⟩

/-- Claim C5 (amended): if Stage 1 fails, synthesis still returns a non-empty
locally-templated document; if Stage 2 fails, Stage 3 is skipped entirely and
the final document is Stage 1's document verbatim (placeholder unexpanded),
with `stage2_completed` and `stage3_completed` both false.  The per-stage
flags report non-emptiness of the stored stage texts, which for Stage 1 is
`true` even on fallback (see the counterexample). -/
theorem C5_pipeline_degradation (goal experience : Option String)
    (responses : List (Option Bool)) (o1 o2 o3 : StageOutcome) :
    (summarizePlacementResults goal experience responses .threw o2 o3).stage1Raw
        = fallbackFramework (stringOr goal "Clarify learner goal")
            (stringOr experience "Not provided") responses
    ∧ (summarizePlacementResults goal experience responses .threw o2 o3).combinedDocument ≠ ""
    ∧ (summarizePlacementResults goal experience responses o1 .threw o3).stage3Attempted = false
    ∧ (summarizePlacementResults goal experience responses o1 .threw o3).stage3Raw = ""
    ∧ (summarizePlacementResults goal experience responses o1 .threw o3).combinedDocument
        = (summarizePlacementResults goal experience responses o1 .threw o3).stage1Raw
    ∧ (summarizePlacementResults goal experience responses o1 .threw o3).stage2Completed = false
    ∧ (summarizePlacementResults goal experience responses o1 .threw o3).stage3Completed = false := by
  refine ⟨rfl, ?_, rfl, rfl, ?_, rfl, rfl⟩
  · exact stitchDocuments_ne_empty _ _ (fallbackFramework_ne_empty _ _ _)
  · simp [summarizePlacementResults, stitchDocuments, truthyStr]

/-- Claim C6 counterexample: for a stored correct answer "B", the submission
"Answer: B" is graded incorrect — `normalizeChoiceLetter` extracts the
leading "A" of "Answer" via the `^[A-D]` alternative — and an empty
submission without `skip` is rejected with a 400 validation error rather
than graded `isCorrect=false`. -/
theorem C6_choice_counterexample :
    Except.map (fun x => x.2.isCorrect)
      (submitAnswer mcStore "u" 1 1 (some "Answer: B") false .threw none) = .ok (some false)
    ∧ submitAnswer mcStore "u" 1 1 (some "") false .threw none
        = .error .badRequestResponseRequired
    ∧ normalizeChoiceLetter "Answer: B" = "A" := ⟨rfl, rfl, rfl⟩

/-- Claim C6 (amended): for a stored correct answer "B", the submissions "b"
and "B. the second option" grade correct, "A", "zzz" (non-letter text) and
"Answer: B" grade incorrect (the latter because the first character of
"Answer" matches `^[A-D]`), an empty non-skip submission is rejected with a
validation error before grading, and no generation-client judge call is made
on any multiple-choice grading path (`evalCalls = 0`). -/
theorem C6_choice_determinism :
    Except.map (fun x => (x.2.isCorrect, x.2.evalCalls))
        (submitAnswer mcStore "u" 1 1 (some "b") false .threw none) = .ok (some true, 0)
    ∧ Except.map (fun x => (x.2.isCorrect, x.2.evalCalls))
        (submitAnswer mcStore "u" 1 1 (some "B. the second option") false .threw none)
        = .ok (some true, 0)
    ∧ Except.map (fun x => (x.2.isCorrect, x.2.evalCalls))
        (submitAnswer mcStore "u" 1 1 (some "A") false .threw none) = .ok (some false, 0)
    ∧ Except.map (fun x => (x.2.isCorrect, x.2.evalCalls))
        (submitAnswer mcStore "u" 1 1 (some "zzz") false .threw none) = .ok (some false, 0)
    ∧ Except.map (fun x => (x.2.isCorrect, x.2.evalCalls))
        (submitAnswer mcStore "u" 1 1 (some "Answer: B") false .threw none) = .ok (some false, 0)
    ∧ submitAnswer mcStore "u" 1 1 (some "") false .threw none
        = .error .badRequestResponseRequired :=
  ⟨rfl, rfl, rfl, rfl, rfl, rfl⟩

/-- Claim C7 counterexample: when the judge reply parses to an object whose
`is_correct` field is not a boolean but that carries an `ideal_answer`, the
route returns that parsed ideal answer ("42"), not the stored reference
("ref") the claim says it falls back to. -/
theorem C7_judge_counterexample :
    Except.map (fun x => (x.2.isCorrect, x.2.evalIdealAnswer))
      (submitAnswer txStore "u" 1 1 (some "my answer") false
        (.replied (some ⟨none, some "42", some "fb"⟩)) none)
      = .ok (some false, some "42")
    ∧ (txStore.questions.find? (fun q => q.id == 1)).map (fun q => q.correctAnswer)
      = some (some "ref") := ⟨rfl, rfl⟩

/-- Claim C7 (amended): for any free-text submission that passes validation,
`submitAnswer` never propagates a judge failure (it always returns ok); on a
thrown judge call or an unparseable reply it returns `isCorrect=false` with
the ideal answer falling back to the stored reference (possibly null) and
null feedback; when the reply parses but `is_correct` is missing or
non-boolean it returns `isCorrect=false` with the parsed (sanitized) ideal
answer if non-empty, else the stored reference. -/
theorem C7_fail_closed_judging (s : Store) (u : String) (A Q : Nat) (resp : String)
    (so : Option String) (attempt : Attempt) (question : Question)
    (ha : s.attempts.find? (fun a => a.id == A) = some attempt)
    (hu : attempt.userId = u)
    (hqf : s.questions.find? (fun q => q.id == Q) = some question)
    (ht : question.testId = attempt.testId)
    (hqt : question.qtype ≠ .multiple_choice)
    (hr : jsTrim resp ≠ "") :
    (∀ j, (submitAnswer s u A Q (some resp) false j so).isOk = true)
    ∧ (∀ j, j = JudgeOutcome.threw ∨ j = JudgeOutcome.replied none →
        Except.map (fun x => (x.2.isCorrect, x.2.evalIdealAnswer, x.2.evalFeedback))
          (submitAnswer s u A Q (some resp) false j so)
          = .ok (some false, question.correctAnswer, none))
    ∧ (∀ p : ParsedJudge, p.isCorrectField = none →
        Except.map (fun x => (x.2.isCorrect, x.2.evalIdealAnswer, x.2.evalFeedback))
          (submitAnswer s u A Q (some resp) false (.replied (some p)) so)
          = .ok (some false,
                 (match sanitizeString p.idealAnswerField with
                  | some t => some t
                  | none => question.correctAnswer),
                 sanitizeString p.feedbackField)) := by
  have hv : (!false && !hasTypedResponse (some resp)) = false := by
    simp [hasTypedResponse, hr]
  refine ⟨?_, ?_, ?_⟩
  · intro j
    obtain ⟨answers', hw, hok⟩ := submitAnswer_ok_of s u A Q (some resp) false j so attempt question ha hu hqf ht hv
    rw [hok]; rfl
  · intro j hj
    have hcore := submitText_resp s u A Q resp so attempt question j ha hu hqf ht hqt hr
    rcases hj with hj | hj <;> subst hj <;>
      simpa [evaluateTextAnswer] using hcore
  · intro p hp
    have hcore := submitText_resp s u A Q resp so attempt question (.replied (some p)) ha hu hqf ht hqt hr
    simpa [evaluateTextAnswer, hp] using hcore

/-- Witness for C7: a thrown judge call at a concrete store still yields an
ok response with `isCorrect=false` and the stored reference as ideal
answer. -/
theorem C7_fail_closed_judging_witness :
    Except.map (fun x => (x.2.isCorrect, x.2.evalIdealAnswer, x.2.evalFeedback))
      (submitAnswer txStore "u" 1 1 (some "my answer") false .threw none)
      = .ok (some false, some "ref", none) :=
  (C7_fail_closed_judging txStore "u" 1 1 "my answer" none ⟨1, "u", 1, false⟩
      ⟨1, 1, .text, some "ref", "Explain X", none⟩ rfl rfl rfl rfl
      (by decide) (by decide)).2.1 .threw (Or.inl rfl)

/-- Claim C8 counterexample: a declared multiple-choice question with five
sanitized options and a valid correct answer is persisted as multiple choice
with all five options — the claimed upper bound of four options is not
enforced anywhere in `transformQuestion`. -/
theorem C8_options_counterexample :
    (transformQuestion (some ⟨none, some "q", some "multiple_choice",
        some [some "o1", some "o2", some "o3", some "o4", some "o5"],
        some "B", none, none⟩) 0).map
      (fun t => (t.2.rtype, t.2.options.map (fun l => l.length)))
    = some ("multiple_choice", some 5) := rfl

/-- Claim C8 (amended): a question with blank text is dropped; a declared
multiple-choice question keeps that type exactly when it has at least two
sanitized options and a normalized (non-null, non-"n/a"/"none") correct
answer, and is coerced to text otherwise; every persisted multiple-choice
record carries the ordered sanitized option list (length ≥ 2, no empty
entries, each the trim of an original entry) and the normalized correct
answer — but no upper bound of four options is enforced. -/
theorem C8_question_normalization (q : RawQuestion) (index : Nat) :
    (jsTrim (q.question.getD "") = "" → transformQuestion (some q) index = none)
    ∧ (jsToLower (q.qtype.getD "") = "multiple_choice" →
        ∀ s r, transformQuestion (some q) index = some (s, r) →
          r.rtype = (if 2 ≤ (normalizedOptionsOf q).length
                        ∧ (normalizeCorrectAnswer q.correct_answer).isSome = true
                     then "multiple_choice" else "text"))
    ∧ (∀ s r, transformQuestion (some q) index = some (s, r) →
        r.rtype = "multiple_choice" →
          r.options = some (normalizedOptionsOf q)
          ∧ 2 ≤ (normalizedOptionsOf q).length
          ∧ r.correctAnswer = normalizeCorrectAnswer q.correct_answer
          ∧ (normalizeCorrectAnswer q.correct_answer).isSome = true)
    ∧ (∀ o ∈ normalizedOptionsOf q, o ≠ ""
        ∧ ∃ e ∈ q.options.getD [],
            (match e with | some str => jsTrim str | none => "") = o) := by
  constructor
  · intro hq
    unfold transformQuestion
    simp [tqRecord, tqSanitized, hq]
  constructor
  · intro hmc s r htr
    obtain ⟨hr, -, -⟩ := transformQuestion_some_inv q index s r htr
    subst hr
    show tqType q = _
    exact tqType_of_mc q hmc
  constructor
  · intro s r htr hmc2
    obtain ⟨hr, -, -⟩ := transformQuestion_some_inv q index s r htr
    subst hr
    have hty : tqType q = "multiple_choice" := hmc2
    obtain ⟨h1, h2⟩ := tqType_mc_inv q hty
    refine ⟨?_, h1, ?_, h2⟩
    · show (if tqType q == "multiple_choice" then _ else _) = _
      simp [hty]
    · show (tqSanitized q index).correct_answer = _
      simp [tqSanitized, hty]
  · intro o ho
    unfold normalizedOptionsOf at ho
    cases hopt : q.options with
    | none => rw [hopt] at ho; simp at ho
    | some opts =>
      rw [hopt] at ho
      rw [List.mem_filter] at ho
      obtain ⟨hmem, hlen⟩ := ho
      constructor
      · intro h
        rw [h] at hlen
        simp at hlen
      · obtain ⟨e, he, heq⟩ := List.mem_map.mp hmem
        exact ⟨e, by simp [hopt, he], heq⟩

/-- Witness for C8: a blank-text question is dropped, and a declared
multiple-choice question with a single option is coerced to text. -/
theorem C8_question_normalization_witness :
    (transformQuestion (some ⟨none, some "   ", some "text", none, none, none, none⟩) 0 = none)
    ∧ (tqRecord ⟨none, some "q", some "multiple_choice",
          some [some "only one"], some "B", none, none⟩ 0).rtype = "text" := by
  constructor
  · exact (C8_question_normalization ⟨none, some "   ", some "text", none, none, none, none⟩ 0).1 (by decide)
  · have h := (C8_question_normalization ⟨none, some "q", some "multiple_choice",
        some [some "only one"], some "B", none, none⟩ 0).2.1 (by decide)
      (tqSanitized ⟨none, some "q", some "multiple_choice",
        some [some "only one"], some "B", none, none⟩ 0)
      (tqRecord ⟨none, some "q", some "multiple_choice",
        some [some "only one"], some "B", none, none⟩ 0) rfl
    rw [h]
    decide

/-! ## Submit-call inversion and store-shape lemmas -/

theorem finishSubmit_population (attempt : Attempt) (A : Nat) (g : GradeOut)
    (answers' : List AnswerRow) (nid : Nat) (atts : List Attempt) (so : Option String) :
    ((finishSubmit attempt A g answers' nid atts so).2.results.isSome
       = (finishSubmit attempt A g answers' nid atts so).2.completed)
    ∧ ((finishSubmit attempt A g answers' nid atts so).2.synthInvoked
       = (finishSubmit attempt A g answers' nid atts so).2.completed)
    ∧ ((finishSubmit attempt A g answers' nid atts so).2.placementSummary
       = (if (finishSubmit attempt A g answers' nid atts so).2.completed = true then so else none))
    ∧ ((finishSubmit attempt A g answers' nid atts so).2.completed
       = (decide (0 < (finishSubmit attempt A g answers' nid atts so).2.total)
          && decide ((finishSubmit attempt A g answers' nid atts so).2.total
                     ≤ (finishSubmit attempt A g answers' nid atts so).2.answered))) := by
  by_cases h1 : 0 < countTotal ⟨atts, g.questions, answers', nid⟩ attempt.testId <;>
    by_cases h2 : countTotal ⟨atts, g.questions, answers', nid⟩ attempt.testId
        ≤ countAnswered ⟨atts, g.questions, answers', nid⟩ A <;>
      simp [finishSubmit, h1, h2]

/-- The store returned by `finishSubmit` holds exactly the written answer
rows and the (possibly backfilled) question table. -/
theorem finishSubmit_store (attempt : Attempt) (A : Nat) (g : GradeOut)
    (answers' : List AnswerRow) (nid : Nat) (atts : List Attempt) (so : Option String) :
    (finishSubmit attempt A g answers' nid atts so).1.answers = answers'
    ∧ (finishSubmit attempt A g answers' nid atts so).1.questions = g.questions := by
  constructor <;> rfl

/-- Inversion of any successful submit call. -/
theorem submitAnswer_ok_inv (s : Store) (u : String) (A Q : Nat) (resp : Option String)
    (skip : Bool) (j : JudgeOutcome) (so : Option String) (out : Store × AnswerResp)
    (h : submitAnswer s u A Q resp skip j so = .ok out) :
    ∃ attempt question answers',
      s.attempts.find? (fun a => a.id == A) = some attempt
      ∧ attempt.userId = u
      ∧ s.questions.find? (fun q => q.id == Q) = some question
      ∧ question.testId = attempt.testId
      ∧ answerWrite s.answers A Q s.nextAnswerId (answerCheck s.answers A Q)
          ⟨(gradeAnswer s.questions question resp skip j).userResponse,
           (gradeAnswer s.questions question resp skip j).isCorrect,
           (gradeAnswer s.questions question resp skip j).evalIdeal,
           (gradeAnswer s.questions question resp skip j).evalFeedback,
           question.qtype == .text⟩ = .ok answers'
      ∧ out = finishSubmit attempt A (gradeAnswer s.questions question resp skip j) answers'
            (if (answerCheck s.answers A Q).isSome then s.nextAnswerId else s.nextAnswerId + 1)
            s.attempts so := by
  unfold submitAnswer at h
  cases hval : (!skip && !hasTypedResponse resp)
  case true =>
    rw [hval, if_pos rfl] at h
    exact Except.noConfusion h
  case false =>
    rw [hval, if_neg (by decide)] at h
    cases ha : s.attempts.find? (fun a => a.id == A) with
    | none => rw [ha] at h; exact Except.noConfusion h
    | some attempt =>
      simp only [ha] at h
      cases hux : (attempt.userId != u)
      case true => rw [hux, if_pos rfl] at h; exact Except.noConfusion h
      case false =>
      simp only [hux, Bool.false_eq_true, if_false, ite_false] at h
      cases hqf : s.questions.find? (fun q => q.id == Q) with
      | none => rw [hqf] at h; exact Except.noConfusion h
      | some question =>
        simp only [hqf] at h
        cases htx : (question.testId != attempt.testId)
        case true => rw [htx, if_pos rfl] at h; exact Except.noConfusion h
        case false =>
        simp only [htx, Bool.false_eq_true, if_false, ite_false] at h
        cases hw : answerWrite s.answers A Q s.nextAnswerId (answerCheck s.answers A Q)
            ⟨(gradeAnswer s.questions question resp skip j).userResponse,
             (gradeAnswer s.questions question resp skip j).isCorrect,
             (gradeAnswer s.questions question resp skip j).evalIdeal,
             (gradeAnswer s.questions question resp skip j).evalFeedback,
             question.qtype == .text⟩ with
        | error e => rw [hw] at h; exact Except.noConfusion h
        | ok answers' =>
          simp only [hw] at h
          refine ⟨attempt, question, answers', ?_, ?_, ?_, ?_, ?_, ?_⟩ <;>
            first
            | rfl
            | exact hw
            | (simpa using hux)
            | (simpa using htx)
            | exact (Except.ok.inj h).symm

theorem normalizeCorrectAnswer_some_ne (v : Option String) (t : String)
    (h : normalizeCorrectAnswer v = some t) : t ≠ "" := by
  unfold normalizeCorrectAnswer at h
  cases v with
  | none => cases h
  | some s =>
    simp only at h
    split at h
    · cases h
    · split at h
      · cases h
      · rename_i hne hban
        cases h
        simpa using hne

theorem gradeAnswer_isCorrect_isSome (qs : List Question) (q : Question)
    (resp : Option String) (skip : Bool) (j : JudgeOutcome)
    (hq : q.qtype = .multiple_choice → ∃ t, q.correctAnswer = some t ∧ t ≠ "") :
    (gradeAnswer qs q resp skip j).isCorrect.isSome = true := by
  unfold gradeAnswer
  cases skip
  · simp only [if_false, Bool.false_eq_true, ite_false]
    cases hmc : (q.qtype == QType.multiple_choice)
    · simp
    · simp only [if_true, ite_true]
      obtain ⟨t, hco, hne⟩ := hq (by simpa using hmc)
      rw [hco]
      simp [hne]
  · simp

theorem answerWrite_preserves_isCorrect (rows : List AnswerRow) (aid qid nid : Nat)
    (check : Option Nat) (p : WritePayload) (rows' : List AnswerRow)
    (hw : answerWrite rows aid qid nid check p = .ok rows')
    (hrows : ∀ r ∈ rows, r.isCorrect.isSome = true)
    (hp : p.isCorrect.isSome = true) :
    ∀ r ∈ rows', r.isCorrect.isSome = true := by
  intro r hr
  cases check with
  | some rid =>
    simp only [answerWrite] at hw
    cases hw
    obtain ⟨r0, hr0, hfr⟩ := List.mem_map.mp hr
    subst hfr
    by_cases hid : (r0.id == rid) = true
    · simp only [hid, if_true, ite_true]
      unfold applyAnswerUpdate
      cases p.isText <;> simpa using hp
    · rw [if_neg (by simpa using hid)]
      exact hrows r0 hr0
  | none =>
    simp only [answerWrite, answerInsert] at hw
    cases hany : (rows.any fun rr =>
        rr.attemptId == (newAnswerRow nid aid qid p).attemptId
        && rr.questionId == (newAnswerRow nid aid qid p).questionId) <;>
      simp only [hany, if_true, if_false, Bool.false_eq_true, ite_true, ite_false] at hw
    case true => cases hw
    case false =>
    cases hw
    rcases List.mem_append.mp hr with h | h
    · exact hrows r h
    · rw [List.mem_singleton.mp h]
      simpa [newAnswerRow] using hp

/-- Frame property of grading: the question table is unchanged except for
the lazy backfill of the submitted question's correct answer, which fires
exactly when the evaluation carried a non-empty (truthy) ideal answer, the
stored reference was null or blank, the call was not a skip, and the question
is not multiple choice. -/
theorem gradeAnswer_questions_frame (qs : List Question) (q : Question)
    (resp : Option String) (skip : Bool) (j : JudgeOutcome) :
    (gradeAnswer qs q resp skip j).questions = qs
    ∨ (∃ v, (evaluateTextAnswer q.correctAnswer j).idealAnswer = some v ∧ v ≠ ""
        ∧ (q.correctAnswer = none ∨ ∃ t, q.correctAnswer = some t ∧ jsTrim t = "")
        ∧ skip = false ∧ q.qtype ≠ .multiple_choice
        ∧ (gradeAnswer qs q resp skip j).questions
            = qs.map (fun qq =>
                if qq.id == q.id then { qq with correctAnswer := some v } else qq)) := by
  unfold gradeAnswer
  cases skip
  · cases hmc : (q.qtype == QType.multiple_choice)
    · simp only [if_false, Bool.false_eq_true, ite_false, hmc]
      cases hideal : (evaluateTextAnswer q.correctAnswer j).idealAnswer with
      | none => left; simp [truthyStr, hideal]
      | some v =>
        by_cases hv : v = ""
        · left; simp [truthyStr, hideal, hv]
        · cases hcond : (match q.correctAnswer with
            | none => true
            | some t => jsTrim t == "")
          · left
            simp only [truthyStr, hideal, hcond, Bool.and_false]
            simp
          · right
            refine ⟨v, rfl, hv, ?_, trivial, by simpa using hmc, ?_⟩
            · revert hcond
              cases q.correctAnswer with
              | none => intro h; exact Or.inl rfl
              | some t =>
                intro h
                exact Or.inr ⟨t, rfl, by simpa using h⟩
            · simp [truthyStr, hv]
    · left
      simp only [Bool.false_eq_true, if_false, ite_false, hmc, if_true, ite_true]
  · left
    simp

/-! ## Answer-key bookkeeping for the uniqueness claims -/

/-- Projection of the answer table to its (attempt_id, question_id) keys. -/
def answerKeys (rows : List AnswerRow) : List (Nat × Nat) :=
  rows.map (fun r => (r.attemptId, r.questionId))

theorem applyAnswerUpdate_key (r : AnswerRow) (p : WritePayload) :
    (applyAnswerUpdate r p).attemptId = r.attemptId
    ∧ (applyAnswerUpdate r p).questionId = r.questionId
    ∧ (applyAnswerUpdate r p).id = r.id := by
  unfold applyAnswerUpdate
  cases p.isText <;> simp

theorem answerWrite_keys (rows : List AnswerRow) (aid qid nid : Nat) (p : WritePayload)
    (rows' : List AnswerRow)
    (hw : answerWrite rows aid qid nid (answerCheck rows aid qid) p = .ok rows') :
    ((answerCheck rows aid qid).isSome = true ∧ answerKeys rows' = answerKeys rows)
    ∨ (answerCheck rows aid qid = none
       ∧ answerKeys rows' = answerKeys rows ++ [(aid, qid)]
       ∧ (aid, qid) ∉ answerKeys rows
       ∧ rows' = rows ++ [newAnswerRow nid aid qid p]) := by
  cases hc : answerCheck rows aid qid with
  | some rid =>
    left
    rw [hc] at hw
    simp only [answerWrite] at hw
    refine ⟨by simp, ?_⟩
    rw [← Except.ok.inj hw]
    unfold answerKeys
    rw [List.map_map]
    apply List.map_congr_left
    intro r hr
    by_cases hid : (r.id == rid) = true
    · simp only [Function.comp, hid, if_pos rfl, ite_true]
      obtain ⟨h1, h2, -⟩ := applyAnswerUpdate_key r p
      simp [h1, h2]
    · simp only [Function.comp]
      rw [if_neg (by simpa using hid)]
  | none =>
    right
    rw [hc] at hw
    simp only [answerWrite, answerInsert] at hw
    cases hany : (rows.any fun rr =>
        rr.attemptId == (newAnswerRow nid aid qid p).attemptId
        && rr.questionId == (newAnswerRow nid aid qid p).questionId) <;>
      simp only [hany, if_true, if_false, Bool.false_eq_true, ite_true, ite_false] at hw
    case true => exact Except.noConfusion hw
    case false =>
    have hrows' : rows' = rows ++ [newAnswerRow nid aid qid p] := (Except.ok.inj hw).symm
    have hfind : rows.find? (fun r => r.attemptId == aid && r.questionId == qid) = none := by
      unfold answerCheck at hc
      cases hf : rows.find? (fun r => r.attemptId == aid && r.questionId == qid) with
      | none => rfl
      | some r => rw [hf] at hc; cases hc
    have hnomem : (aid, qid) ∉ answerKeys rows := by
      intro hmem
      obtain ⟨r, hrmem, hkey⟩ := List.mem_map.mp hmem
      have := List.find?_eq_none.mp hfind r hrmem
      have h1 : r.attemptId = aid := congrArg Prod.fst hkey
      have h2 : r.questionId = qid := congrArg Prod.snd hkey
      simp [h1, h2] at this
    refine ⟨rfl, ?_, hnomem, hrows'⟩
    rw [hrows']
    unfold answerKeys
    rw [List.map_append]
    rfl



/-- The per-key row filter has the same length as the corresponding key
filter. -/
theorem filter_key_length (rows : List AnswerRow) (aid qid : Nat) :
    (rows.filter (fun r => r.attemptId == aid && r.questionId == qid)).length
    = ((answerKeys rows).filter (fun k => k.1 == aid && k.2 == qid)).length := by
  unfold answerKeys
  rw [List.filter_map, List.length_map]
  rfl

theorem nodup_filter_pair_length (l : List (Nat × Nat)) (aid qid : Nat)
    (hN : l.Nodup) (hm : (aid, qid) ∈ l) :
    (l.filter (fun k => k.1 == aid && k.2 == qid)).length = 1 := by
  induction l with
  | nil => cases hm
  | cons k tl ih =>
    rw [List.nodup_cons] at hN
    by_cases hk : (k.1 == aid && k.2 == qid) = true
    · have hkeq : k = (aid, qid) := by
        have hk2 : k.1 = aid ∧ k.2 = qid := by simpa using hk
        exact Prod.ext hk2.1 hk2.2
      have htl : tl.filter (fun k => k.1 == aid && k.2 == qid) = [] := by
        rw [List.filter_eq_nil_iff]
        intro a ha hpa
        have ha2 : a.1 = aid ∧ a.2 = qid := by simpa using hpa
        have : a = (aid, qid) := Prod.ext ha2.1 ha2.2
        subst this
        exact hN.1 (hkeq ▸ ha)
      rw [List.filter_cons, if_pos hk, htl]
      rfl
    · have hm' : (aid, qid) ∈ tl := by
        rcases List.mem_cons.mp hm with h | h
        · exfalso
          apply hk
          rw [← h]
          simp
        · exact h
      rw [List.filter_cons, if_neg hk]
      exact ih hN.2 hm'

theorem filter_pair_nil_of_not_mem (l : List (Nat × Nat)) (aid qid : Nat)
    (hm : (aid, qid) ∉ l) :
    l.filter (fun k => k.1 == aid && k.2 == qid) = [] := by
  rw [List.filter_eq_nil_iff]
  intro a ha hpa
  have ha2 : a.1 = aid ∧ a.2 = qid := by simpa using hpa
  have : a = (aid, qid) := Prod.ext ha2.1 ha2.2
  subst this
  exact hm ha

theorem answerWrite_unique (rows : List AnswerRow) (aid qid nid : Nat) (p : WritePayload)
    (rows' : List AnswerRow)
    (hw : answerWrite rows aid qid nid (answerCheck rows aid qid) p = .ok rows')
    (hN : (answerKeys rows).Nodup) :
    (answerKeys rows').Nodup
    ∧ (rows'.filter (fun r => r.attemptId == aid && r.questionId == qid)).length = 1 := by
  rcases answerWrite_keys rows aid qid nid p rows' hw with ⟨hs, hkeys⟩ | ⟨hc, hkeys, hnm, hrows'⟩
  · constructor
    · rw [hkeys]; exact hN
    · rw [filter_key_length, hkeys]
      have hmem : (aid, qid) ∈ answerKeys rows := by
        unfold answerCheck at hs
        cases hf : rows.find? (fun r => r.attemptId == aid && r.questionId == qid) with
        | none => rw [hf] at hs; simp at hs
        | some r =>
          have hrmem := List.mem_of_find?_eq_some hf
          have hpred := List.find?_some hf
          have h1 : r.attemptId = aid ∧ r.questionId = qid := by simpa using hpred
          exact List.mem_map.mpr ⟨r, hrmem, by rw [h1.1, h1.2]⟩
      exact nodup_filter_pair_length _ aid qid hN hmem
  · constructor
    · rw [hkeys, List.nodup_append]
      refine ⟨hN, List.nodup_singleton _, ?_⟩
      intro a ha hb
      rw [List.mem_singleton.mp hb] at ha
      exact hnm ha
    · rw [filter_key_length, hkeys, List.filter_append,
        filter_pair_nil_of_not_mem _ _ _ hnm]
      simp

theorem answerWrite_count_preserved (rows : List AnswerRow) (aid qid nid : Nat)
    (p : WritePayload) (rows' : List AnswerRow) (A Q : Nat)
    (hw : answerWrite rows aid qid nid (answerCheck rows aid qid) p = .ok rows')
    (hC : (rows.filter (fun r => r.attemptId == A && r.questionId == Q)).length = 1) :
    (rows'.filter (fun r => r.attemptId == A && r.questionId == Q)).length = 1 := by
  rcases answerWrite_keys rows aid qid nid p rows' hw with ⟨-, hkeys⟩ | ⟨-, hkeys, hnm, -⟩
  · rw [filter_key_length, hkeys, ← filter_key_length]
    exact hC
  · rw [filter_key_length, hkeys, List.filter_append]
    by_cases hsame : ((aid, qid) : Nat × Nat) = (A, Q)
    · exfalso
      rw [filter_key_length, filter_pair_nil_of_not_mem _ _ _ (hsame ▸ hnm)] at hC
      simp at hC
    · have hsingle : ([((aid, qid) : Nat × Nat)].filter (fun k => k.1 == A && k.2 == Q)) = [] := by
        rw [List.filter_eq_nil_iff]
        intro a ha hpa
        rw [List.mem_singleton.mp ha] at hpa
        have h2 : aid = A ∧ qid = Q := by simpa using hpa
        exact hsame (by rw [h2.1, h2.2])
      rw [hsingle, List.append_nil, ← filter_key_length]
      exact hC

/-- One request against the answer route, as replayed in a sequence. -/
structure SubmitReq where
  userId : String
  attemptId : Nat
  questionId : Nat
  response : Option String
  skip : Bool
  judge : JudgeOutcome
  synth : Option String

/-- State transition of one request: a successful call commits its new store,
a failed call leaves the store unchanged (every route error happens before
any write). -/
def submitStep (s : Store) (req : SubmitReq) : Store :=
  match submitAnswer s req.userId req.attemptId req.questionId req.response
      req.skip req.judge req.synth with
  | .ok out => out.1
  | .error _ => s

theorem submitStep_unique_preserved (s : Store) (req : SubmitReq) (A Q : Nat)
    (hN : (answerKeys s.answers).Nodup)
    (hC : (s.answers.filter (fun r => r.attemptId == A && r.questionId == Q)).length = 1) :
    (answerKeys (submitStep s req).answers).Nodup
    ∧ ((submitStep s req).answers.filter
        (fun r => r.attemptId == A && r.questionId == Q)).length = 1 := by
  unfold submitStep
  cases hok : submitAnswer s req.userId req.attemptId req.questionId req.response
      req.skip req.judge req.synth with
  | error e => exact ⟨hN, hC⟩
  | ok out =>
    obtain ⟨attempt, question, answers', -, -, -, -, hw, hout⟩ :=
      submitAnswer_ok_inv _ _ _ _ _ _ _ _ _ hok
    have hans : out.1.answers = answers' := by
      rw [hout]
      exact (finishSubmit_store _ _ _ _ _ _ _).1
    rw [hans]
    exact ⟨(answerWrite_unique _ _ _ _ _ _ hw hN).1,
           answerWrite_count_preserved _ _ _ _ _ _ A Q hw hC⟩

theorem submitMany_unique (reqs : List SubmitReq) (s : Store) (A Q : Nat)
    (hN : (answerKeys s.answers).Nodup)
    (hC : (s.answers.filter (fun r => r.attemptId == A && r.questionId == Q)).length = 1) :
    ((reqs.foldl submitStep s).answers.filter
        (fun r => r.attemptId == A && r.questionId == Q)).length = 1 := by
  induction reqs generalizing s with
  | nil => exact hC
  | cons r tl ih =>
    rw [List.foldl_cons]
    obtain ⟨hN', hC'⟩ := submitStep_unique_preserved s r A Q hN hC
    exact ih _ hN' hC'

theorem answerWrite_update_in_place (rows : List AnswerRow) (aid qid nid : Nat)
    (p : WritePayload) (rows' : List AnswerRow) (row0 : AnswerRow)
    (hfind : rows.find? (fun r => r.attemptId == aid && r.questionId == qid) = some row0)
    (hw : answerWrite rows aid qid nid (answerCheck rows aid qid) p = .ok rows') :
    rows'.length = rows.length
    ∧ ∃ row', rows'.find? (fun r => r.attemptId == aid && r.questionId == qid) = some row'
        ∧ row'.id = row0.id := by
  have hc : answerCheck rows aid qid = some row0.id := by
    unfold answerCheck
    rw [hfind]
    rfl
  rw [hc] at hw
  simp only [answerWrite] at hw
  have hrows' : rows' = rows.map (fun r => if r.id == row0.id then applyAnswerUpdate r p else r) :=
    (Except.ok.inj hw).symm
  subst hrows'
  constructor
  · simp
  · have hpred : ((fun r : AnswerRow => r.attemptId == aid && r.questionId == qid)
        ∘ (fun r => if r.id == row0.id then applyAnswerUpdate r p else r))
        = (fun r : AnswerRow => r.attemptId == aid && r.questionId == qid) := by
      funext r
      simp only [Function.comp]
      by_cases hid : (r.id == row0.id) = true
      · rw [if_pos hid]
        obtain ⟨h1, h2, -⟩ := applyAnswerUpdate_key r p
        rw [h1, h2]
      · rw [if_neg hid]
    rw [List.find?_map, hpred, hfind]
    refine ⟨_, rfl, ?_⟩
    show (if row0.id == row0.id then applyAnswerUpdate row0 p else row0).id = row0.id
    rw [if_pos (by simp)]
    exact (applyAnswerUpdate_key row0 p).2.2

/-! ## Pigeonhole machinery for the completion counts -/

theorem nodup_subset_length {α : Type} [DecidableEq α] (l1 l2 : List α)
    (h1 : l1.Nodup) (hs : l1 ⊆ l2) : l1.length ≤ l2.length := by
  classical
  calc l1.length = l1.toFinset.card := (List.toFinset_card_of_nodup h1).symm
    _ ≤ l2.toFinset.card := Finset.card_le_card (fun x hx => by
        rw [List.mem_toFinset] at hx ⊢; exact hs hx)
    _ ≤ l2.length := l2.toFinset_card_le

theorem nodup_snd_of_fst_const (l : List (Nat × Nat)) (aid : Nat)
    (hN : l.Nodup) (hfst : ∀ k ∈ l, k.1 = aid) : (l.map Prod.snd).Nodup := by
  induction l with
  | nil => simp
  | cons k tl ih =>
    rw [List.nodup_cons] at hN
    rw [List.map_cons, List.nodup_cons]
    refine ⟨?_, ih hN.2 (fun k' hk' => hfst k' (List.mem_cons_of_mem _ hk'))⟩
    intro hmem
    obtain ⟨k', hk', heq⟩ := List.mem_map.mp hmem
    have hkk : k' = k := by
      refine Prod.ext ?_ heq
      rw [hfst k' (List.mem_cons_of_mem _ hk'), hfst k (List.mem_cons_self _ _)]
    exact hN.1 (hkk ▸ hk')

/-- Pigeonhole for the completion counts: with unique (attempt, question)
keys, unique question ids, and every answer key of the attempt pointing at a
question of the attempt's test, the answered count cannot exceed the total
question count. -/
theorem answered_le_total (keys : List (Nat × Nat)) (questions : List Question)
    (aid tid : Nat)
    (hN : keys.Nodup)
    (hq : (questions.map (fun q => q.id)).Nodup)
    (hlink : ∀ k ∈ keys, k.1 = aid → ∃ q ∈ questions, q.id = k.2 ∧ q.testId = tid) :
    (keys.filter (fun k => k.1 == aid)).length
      ≤ (questions.filter (fun q => q.testId == tid)).length := by
  have hLN : (keys.filter (fun k => k.1 == aid)).Nodup := hN.filter _
  have hfst : ∀ k ∈ keys.filter (fun k => k.1 == aid), k.1 = aid := by
    intro k hk
    have := List.of_mem_filter hk
    simpa using this
  have hsndN := nodup_snd_of_fst_const _ aid hLN hfst
  have htargetN : ((questions.filter (fun q => q.testId == tid)).map (fun q => q.id)).Nodup := by
    refine List.Nodup.sublist ?_ hq
    exact (List.filter_sublist _).map _
  have hsub : ((keys.filter (fun k => k.1 == aid)).map Prod.snd)
      ⊆ (questions.filter (fun q => q.testId == tid)).map (fun q => q.id) := by
    intro x hx
    obtain ⟨k, hk, hkx⟩ := List.mem_map.mp hx
    obtain ⟨q, hqmem, hqid, hqtid⟩ := hlink k (List.mem_of_mem_filter hk) (hfst k hk)
    refine List.mem_map.mpr ⟨q, ?_, by rw [hqid, hkx]⟩
    exact List.mem_filter.mpr ⟨hqmem, by simp [hqtid]⟩
  have hle := nodup_subset_length _ _ hsndN hsub
  calc (keys.filter (fun k => k.1 == aid)).length
      = ((keys.filter (fun k => k.1 == aid)).map Prod.snd).length := by
        rw [List.length_map]
    _ ≤ ((questions.filter (fun q => q.testId == tid)).map (fun q => q.id)).length := hle
    _ = (questions.filter (fun q => q.testId == tid)).length := by
        rw [List.length_map]

theorem gradeAnswer_id_testId (qs : List Question) (q : Question) (resp : Option String)
    (skip : Bool) (j : JudgeOutcome) :
    (gradeAnswer qs q resp skip j).questions.map (fun qq => (qq.id, qq.testId))
      = qs.map (fun qq => (qq.id, qq.testId)) := by
  rcases gradeAnswer_questions_frame qs q resp skip j with h | ⟨v, -, -, -, -, -, h⟩
  · rw [h]
  · rw [h, List.map_map]
    apply List.map_congr_left
    intro a ha
    simp only [Function.comp]
    by_cases hid : (a.id == q.id) = true
    · rw [if_pos hid]
    · rw [if_neg hid]

theorem exists_same_id_testId (qs qs' : List Question)
    (h : qs'.map (fun q => (q.id, q.testId)) = qs.map (fun q => (q.id, q.testId)))
    (q : Question) (hq : q ∈ qs) :
    ∃ q' ∈ qs', q'.id = q.id ∧ q'.testId = q.testId := by
  have hmem : ((q.id, q.testId) : Nat × Nat) ∈ qs'.map (fun q => (q.id, q.testId)) := by
    rw [h]
    exact List.mem_map.mpr ⟨q, hq, rfl⟩
  obtain ⟨q', hq', heq⟩ := List.mem_map.mp hmem
  exact ⟨q', hq', congrArg Prod.fst heq, congrArg Prod.snd heq⟩

/-! ## Fixture for the attempt state machine claims -/

def doneStore : Store :=
  ⟨[⟨1, "u", 1, true⟩],
   [⟨1, 1, .multiple_choice, some "B", "Q1", none⟩],
   [⟨0, 1, 1, some "B", some true, none, none⟩], 1⟩

/-! ## Claim theorems: attempt completion and answer uniqueness -/

/-- Counterexample to Claim C3: submitting once more against an attempt that
is already completed (`doneStore`) still reports `synthInvoked = true`,
populates `results` and the placement summary, because the route re-checks
only the fresh counts, never whether `completed` just transitioned. -/
theorem C3_counterexample :
    Except.map (fun x => (x.2.synthInvoked, x.2.results.isSome, x.2.placementSummary, x.2.completed))
      (submitAnswer doneStore "u" 1 1 (some "A") false .threw (some "plan-again"))
    = .ok (true, true, some "plan-again", true)
    ∧ (doneStore.attempts.map (fun a => a.completed)) = [true] := ⟨rfl, rfl⟩

/-- Claim C3 (amended): on every successful submit call the `results`,
`synthInvoked` and `placementSummary` fields are populated exactly when the
freshly recomputed counts satisfy completion (`0 < total ∧ total ≤ answered`)
— not only on the call where `completed` first became true. -/
theorem C3_amended (s : Store) (u : String) (A Q : Nat) (resp : Option String)
    (skip : Bool) (j : JudgeOutcome) (so : Option String)
    (attempt : Attempt) (question : Question)
    (ha : s.attempts.find? (fun a => a.id == A) = some attempt)
    (hu : attempt.userId = u)
    (hqf : s.questions.find? (fun q => q.id == Q) = some question)
    (ht : question.testId = attempt.testId)
    (hv : (!skip && !hasTypedResponse resp) = false) :
    ∃ out, submitAnswer s u A Q resp skip j so = .ok out
      ∧ out.2.results.isSome = out.2.completed
      ∧ out.2.synthInvoked = out.2.completed
      ∧ out.2.placementSummary = (if out.2.completed = true then so else none)
      ∧ out.2.completed
          = (decide (0 < out.2.total) && decide (out.2.total ≤ out.2.answered)) := by
  obtain ⟨answers', hw, hok⟩ := submitAnswer_ok_of s u A Q resp skip j so attempt question ha hu hqf ht hv
  exact ⟨_, hok, finishSubmit_population attempt A _ answers' _ s.attempts so⟩

/-- Witness for Claim C3 (amended) at a concrete store. -/
theorem C3_witness :
    ∃ out, submitAnswer doneStore "u" 1 1 (some "A") false .threw (some "p") = .ok out
      ∧ out.2.results.isSome = out.2.completed
      ∧ out.2.synthInvoked = out.2.completed
      ∧ out.2.placementSummary = (if out.2.completed = true then some "p" else none)
      ∧ out.2.completed
          = (decide (0 < out.2.total) && decide (out.2.total ≤ out.2.answered)) :=
  C3_amended doneStore "u" 1 1 (some "A") false .threw (some "p")
    ⟨1, "u", 1, true⟩ ⟨1, 1, .multiple_choice, some "B", "Q1", none⟩
    rfl rfl rfl rfl (by decide)

/-- Claim C9: under the generator-enforced well-formedness of the question
table (every multiple-choice question stores a non-empty correct answer,
which `transformQuestion` guarantees — second conjunct) and assuming all
previously stored rows carry a boolean, every answer row after a successful
submit call carries a boolean (non-null) `is_correct` value, on every path:
multiple-choice, judged free text, and skip. -/
theorem C9_boolean_correctness (s : Store) (u : String) (A Q : Nat) (resp : Option String)
    (skip : Bool) (j : JudgeOutcome) (so : Option String)
    (attempt : Attempt) (question : Question)
    (ha : s.attempts.find? (fun a => a.id == A) = some attempt)
    (hu : attempt.userId = u)
    (hqf : s.questions.find? (fun q => q.id == Q) = some question)
    (ht : question.testId = attempt.testId)
    (hv : (!skip && !hasTypedResponse resp) = false)
    (hWFQ : ∀ q ∈ s.questions, q.qtype = .multiple_choice →
      ∃ t, q.correctAnswer = some t ∧ t ≠ "")
    (hAns : ∀ row ∈ s.answers, row.isCorrect.isSome = true) :
    (∃ out, submitAnswer s u A Q resp skip j so = .ok out
       ∧ ∀ row ∈ out.1.answers, row.isCorrect.isSome = true)
    ∧ (∀ (q : RawQuestion) (i : Nat) (sq : TQSanitized) (r : TQRecord),
        transformQuestion (some q) i = some (sq, r) → r.rtype = "multiple_choice" →
          ∃ t, r.correctAnswer = some t ∧ t ≠ "") := by
  constructor
  · obtain ⟨answers', hw, hok⟩ := submitAnswer_ok_of s u A Q resp skip j so attempt question ha hu hqf ht hv
    refine ⟨_, hok, ?_⟩
    intro row hrow
    have hgrade : (gradeAnswer s.questions question resp skip j).isCorrect.isSome = true :=
      gradeAnswer_isCorrect_isSome s.questions question resp skip j
        (hWFQ question (List.mem_of_find?_eq_some hqf))
    have hall := answerWrite_preserves_isCorrect s.answers A Q s.nextAnswerId
      (answerCheck s.answers A Q) _ answers' hw hAns hgrade
    have hmem : row ∈ answers' := by
      simpa [finishSubmit] using hrow
    exact hall row hmem
  · intro q i sq r htr hmc
    obtain ⟨hr, -, -⟩ := transformQuestion_some_inv q i sq r htr
    subst hr
    have hty : tqType q = "multiple_choice" := hmc
    obtain ⟨-, h2⟩ := tqType_mc_inv q hty
    obtain ⟨t, hct⟩ := Option.isSome_iff_exists.mp h2
    refine ⟨t, ?_, normalizeCorrectAnswer_some_ne _ _ hct⟩
    show (tqSanitized q i).correct_answer = some t
    simp [tqSanitized, hty, hct]

/-- Witness for Claim C9 at a concrete store with a judged text path. -/
theorem C9_witness :
    ∃ out, submitAnswer txStore "u" 1 1 (some "my answer") false .threw none = .ok out
       ∧ ∀ row ∈ out.1.answers, row.isCorrect.isSome = true :=
  (C9_boolean_correctness txStore "u" 1 1 (some "my answer") false .threw none
    ⟨1, "u", 1, false⟩ ⟨1, 1, .text, some "ref", "Explain X", none⟩
    rfl rfl rfl rfl (by decide) (by decide) (by decide)).1

def c1Payload : WritePayload := ⟨some "B", some true, none, none, false⟩

def c1Payload2 : WritePayload := ⟨some "A", some false, none, none, false⟩

/-- Counterexample to Claim C1's mechanism clause: the route's write is a
check-then-insert — a write whose pre-read (`answerCheck`) was stale fails
with the unique-constraint violation instead of merging, unlike the atomic
upsert the spec describes (`upsertAnswer`), which merges at the same state. -/
theorem C1_mechanism_counterexample :
    answerCheck [] 1 1 = none
    ∧ answerWrite [] 1 1 0 none c1Payload = .ok [newAnswerRow 0 1 1 c1Payload]
    ∧ answerWrite [newAnswerRow 0 1 1 c1Payload] 1 1 1 none c1Payload2
        = .error .uniqueViolation
    ∧ upsertAnswer [newAnswerRow 0 1 1 c1Payload] 1 1 1 c1Payload2
        = [applyAnswerUpdate (newAnswerRow 0 1 1 c1Payload) c1Payload2] :=
  ⟨rfl, rfl, rfl, rfl⟩

/-- Claim C1 (amended): the at-most-one-row-per-(attempt, question)
invariant itself does hold — after any successful submit call exactly one
row exists for the submitted pair, the key list stays duplicate-free, any
further sequence of submit calls preserves the count at one, and a
re-submission updates the existing row in place (same row id, no growth). -/
theorem C1_answer_uniqueness (s : Store) (u : String) (A Q : Nat) (resp : Option String)
    (skip : Bool) (j : JudgeOutcome) (so : Option String) (out : Store × AnswerResp)
    (hN : (answerKeys s.answers).Nodup)
    (hok : submitAnswer s u A Q resp skip j so = .ok out) :
    (out.1.answers.filter (fun r => r.attemptId == A && r.questionId == Q)).length = 1
    ∧ (answerKeys out.1.answers).Nodup
    ∧ (∀ reqs : List SubmitReq,
        ((reqs.foldl submitStep out.1).answers.filter
          (fun r => r.attemptId == A && r.questionId == Q)).length = 1)
    ∧ (∀ row0, s.answers.find? (fun r => r.attemptId == A && r.questionId == Q) = some row0 →
        out.1.answers.length = s.answers.length
        ∧ ∃ row', out.1.answers.find? (fun r => r.attemptId == A && r.questionId == Q)
              = some row'
            ∧ row'.id = row0.id) := by
  obtain ⟨attempt, question, answers', hfa, hu2, hqf, ht, hw, hout⟩ :=
    submitAnswer_ok_inv _ _ _ _ _ _ _ _ _ hok
  have hans : out.1.answers = answers' := by
    rw [hout]
    exact (finishSubmit_store _ _ _ _ _ _ _).1
  obtain ⟨hN', hC'⟩ := answerWrite_unique _ _ _ _ _ _ hw hN
  refine ⟨by rw [hans]; exact hC', by rw [hans]; exact hN', ?_, ?_⟩
  · intro reqs
    apply submitMany_unique
    · rw [hans]; exact hN'
    · rw [hans]; exact hC'
  · intro row0 hfind
    obtain ⟨hlen, row', hfind', hid⟩ := answerWrite_update_in_place _ _ _ _ _ _ row0 hfind hw
    exact ⟨by rw [hans]; exact hlen, row', by rw [hans]; exact hfind', hid⟩

def c1OutWitness : Store × AnswerResp :=
  match submitAnswer doneStore "u" 1 1 (some "A") false .threw none with
  | .ok out => out
  | .error _ => (doneStore, ⟨none, false, 0, 0, none, none, false, 0, none, none⟩)

/-- Witness for Claim C1 (amended) at a concrete re-submission. -/
theorem C1_witness :
    (c1OutWitness.1.answers.filter (fun r => r.attemptId == 1 && r.questionId == 1)).length = 1
    ∧ c1OutWitness.1.answers.length = doneStore.answers.length :=
  ⟨(C1_answer_uniqueness doneStore "u" 1 1 (some "A") false .threw none c1OutWitness
      (by decide) rfl).1,
   ((C1_answer_uniqueness doneStore "u" 1 1 (some "A") false .threw none c1OutWitness
      (by decide) rfl).2.2.2 ⟨0, 1, 1, some "B", some true, none, none⟩ rfl).1⟩

def c10Out : Store × AnswerResp :=
  match submitAnswer txStore "u" 1 2 (some "resp") false
      (.replied (some ⟨some true, some "ideal", none⟩)) none with
  | .ok out => out
  | .error _ => (txStore, ⟨none, false, 0, 0, none, none, false, 0, none, none⟩)

/-- Claim C10: after any successful submit call, the question table is
unchanged except possibly for the lazy backfill of the submitted question's
correct answer, which happens only when the judged evaluation supplied a
non-empty ideal answer, the stored reference was null or blank, the call
was not a skip and the question is not multiple choice — and the backfill
touches no other field of any question. -/
theorem C10_lazy_backfill (s : Store) (u : String) (A Q : Nat) (resp : Option String)
    (skip : Bool) (j : JudgeOutcome) (so : Option String) (out : Store × AnswerResp)
    (hok : submitAnswer s u A Q resp skip j so = .ok out) :
    ∃ question, s.questions.find? (fun q => q.id == Q) = some question
    ∧ (out.1.questions = s.questions
       ∨ (∃ v, (evaluateTextAnswer question.correctAnswer j).idealAnswer = some v ∧ v ≠ ""
           ∧ (question.correctAnswer = none
              ∨ ∃ t, question.correctAnswer = some t ∧ jsTrim t = "")
           ∧ skip = false ∧ question.qtype ≠ .multiple_choice
           ∧ out.1.questions
               = s.questions.map (fun qq =>
                   if qq.id == question.id then { qq with correctAnswer := some v }
                   else qq))) := by
  obtain ⟨attempt, question, answers', hfa, hu2, hqf, ht, hw, hout⟩ :=
    submitAnswer_ok_inv _ _ _ _ _ _ _ _ _ hok
  refine ⟨question, hqf, ?_⟩
  have hqs : out.1.questions = (gradeAnswer s.questions question resp skip j).questions := by
    rw [hout]
    exact (finishSubmit_store _ _ _ _ _ _ _).2
  rcases gradeAnswer_questions_frame s.questions question resp skip j with
    h | ⟨v, h1, h2, h3, h4, h5, h6⟩
  · left; rw [hqs, h]
  · right; exact ⟨v, h1, h2, h3, h4, h5, by rw [hqs, h6]⟩

/-- Witness for Claim C10 at a concrete backfilling submission. -/
theorem C10_witness :
    ∃ question, txStore.questions.find? (fun q => q.id == 2) = some question
    ∧ (c10Out.1.questions = txStore.questions
       ∨ (∃ v, (evaluateTextAnswer question.correctAnswer
              (.replied (some ⟨some true, some "ideal", none⟩))).idealAnswer = some v ∧ v ≠ ""
           ∧ (question.correctAnswer = none
              ∨ ∃ t, question.correctAnswer = some t ∧ jsTrim t = "")
           ∧ false = false ∧ question.qtype ≠ .multiple_choice
           ∧ c10Out.1.questions
               = txStore.questions.map (fun qq =>
                   if qq.id == question.id then { qq with correctAnswer := some v }
                   else qq))) :=
  C10_lazy_backfill txStore "u" 1 2 (some "resp") false
    (.replied (some ⟨some true, some "ideal", none⟩)) none c10Out rfl

theorem gradeAnswer_ids (qs : List Question) (q : Question) (resp : Option String)
    (skip : Bool) (j : JudgeOutcome) :
    (gradeAnswer qs q resp skip j).questions.map (fun qq => qq.id)
      = qs.map (fun qq => qq.id) := by
  rcases gradeAnswer_questions_frame qs q resp skip j with h | ⟨v, -, -, -, -, -, h⟩
  · rw [h]
  · rw [h, List.map_map]
    apply List.map_congr_left
    intro a ha
    simp only [Function.comp]
    by_cases hid : (a.id == q.id) = true
    · rw [if_pos hid]
    · rw [if_neg hid]

def c2Store : Store :=
  ⟨[⟨1, "u", 1, false⟩], [⟨1, 1, .multiple_choice, some "B", "Q1", none⟩], [], 0⟩

def c2Out : Store × AnswerResp :=
  match submitAnswer c2Store "u" 1 1 (some "B") false .threw none with
  | .ok out => out
  | .error _ => (c2Store, ⟨none, false, 0, 0, none, none, false, 0, none, none⟩)

/-- Claim C2: on every successful submit call, an already-completed attempt
is never reset; the response counts are exactly the counts re-read from the
final (post-write) store; under the storage invariants (unique answer keys,
unique question ids, every stored answer of the attempt pointing at a
question of the attempt's test) the answered count never exceeds the total,
so the completion condition holds exactly when `answered = total` with
`total > 0`; and the attempt table is rewritten (flipping exactly the found
attempt to completed) precisely when that condition holds and the attempt
was still open — otherwise it is left untouched. -/
theorem C2_completion_monotonic (s : Store) (u : String) (A Q : Nat) (resp : Option String)
    (skip : Bool) (j : JudgeOutcome) (so : Option String) (out : Store × AnswerResp)
    (hok : submitAnswer s u A Q resp skip j so = .ok out)
    (hN : (answerKeys s.answers).Nodup)
    (hQids : (s.questions.map (fun q => q.id)).Nodup)
    (hLink : ∀ attempt0, s.attempts.find? (fun a => a.id == A) = some attempt0 →
      ∀ r ∈ s.answers, r.attemptId = A →
        ∃ q ∈ s.questions, q.id = r.questionId ∧ q.testId = attempt0.testId) :
    (∀ a ∈ s.attempts, a.completed = true →
        ∃ a' ∈ out.1.attempts, a'.id = a.id ∧ a'.completed = true)
    ∧ ∃ attempt, s.attempts.find? (fun a => a.id == A) = some attempt
      ∧ out.2.total = countTotal out.1 attempt.testId
      ∧ out.2.answered = countAnswered out.1 A
      ∧ out.2.answered ≤ out.2.total
      ∧ (out.2.completed = true ↔ 0 < out.2.total ∧ out.2.answered = out.2.total)
      ∧ (if out.2.completed && !attempt.completed
         then out.1.attempts = s.attempts.map (fun a =>
             if a.id == attempt.id then { a with completed := true } else a)
         else out.1.attempts = s.attempts) := by
  obtain ⟨attempt, question, answers', hfa, hu2, hqf, ht, hw, hout⟩ :=
    submitAnswer_ok_inv _ _ _ _ _ _ _ _ _ hok
  subst hout
  have hpair := gradeAnswer_id_testId s.questions question resp skip j
  have hN' : (answerKeys answers').Nodup :=
    (answerWrite_unique s.answers A Q s.nextAnswerId _ answers' hw hN).1
  have hids := gradeAnswer_ids s.questions question resp skip j
  have hq' : ((gradeAnswer s.questions question resp skip j).questions.map
      (fun q => q.id)).Nodup := by
    rw [hids]; exact hQids
  have hold : ∀ k ∈ answerKeys s.answers, k.1 = A →
      ∃ q ∈ (gradeAnswer s.questions question resp skip j).questions,
        q.id = k.2 ∧ q.testId = attempt.testId := by
    intro k hk hk1
    unfold answerKeys at hk
    obtain ⟨r, hr, hkeq⟩ := List.mem_map.mp hk
    have hra : r.attemptId = A := by rw [← hkeq] at hk1; exact hk1
    obtain ⟨q, hqmem, hqid, hqtid⟩ := hLink attempt hfa r hr hra
    obtain ⟨q', hq'mem, hq'id, hq'tid⟩ :=
      exists_same_id_testId s.questions _ hpair q hqmem
    refine ⟨q', hq'mem, ?_, by rw [hq'tid, hqtid]⟩
    rw [hq'id, hqid, ← hkeq]
  have hlink' : ∀ k ∈ answerKeys answers', k.1 = A →
      ∃ q ∈ (gradeAnswer s.questions question resp skip j).questions,
        q.id = k.2 ∧ q.testId = attempt.testId := by
    intro k hk hk1
    rcases answerWrite_keys s.answers A Q s.nextAnswerId _ answers' hw with
      ⟨-, he⟩ | ⟨-, he, -, -⟩
    · rw [he] at hk; exact hold k hk hk1
    · rw [he] at hk
      rcases List.mem_append.mp hk with hk' | hk'
      · exact hold k hk' hk1
      · have hkeq : k = (A, Q) := List.mem_singleton.mp hk'
        subst hkeq
        have hqmem : question ∈ s.questions := List.mem_of_find?_eq_some hqf
        have hqid : question.id = Q := by simpa using List.find?_some hqf
        obtain ⟨q', hq'mem, hq'id, hq'tid⟩ :=
          exists_same_id_testId s.questions _ hpair question hqmem
        exact ⟨q', hq'mem, by rw [hq'id, hqid], by rw [hq'tid, ht]⟩
  have hle := answered_le_total (answerKeys answers')
    (gradeAnswer s.questions question resp skip j).questions A attempt.testId
    hN' hq' hlink'
  have hbridge : (answers'.filter (fun r => r.attemptId == A)).length
      = ((answerKeys answers').filter (fun k => k.1 == A)).length := by
    unfold answerKeys
    rw [List.filter_map, List.length_map]
    rfl
  have hle2 : (finishSubmit attempt A (gradeAnswer s.questions question resp skip j) answers'
      (if (answerCheck s.answers A Q).isSome then s.nextAnswerId else s.nextAnswerId + 1)
      s.attempts so).2.answered
      ≤ (finishSubmit attempt A (gradeAnswer s.questions question resp skip j) answers'
      (if (answerCheck s.answers A Q).isSome then s.nextAnswerId else s.nextAnswerId + 1)
      s.attempts so).2.total := by
    show (answers'.filter (fun r => r.attemptId == A)).length
        ≤ ((gradeAnswer s.questions question resp skip j).questions.filter
            (fun q => q.testId == attempt.testId)).length
    rw [hbridge]; exact hle
  have hatts : (finishSubmit attempt A (gradeAnswer s.questions question resp skip j) answers'
      (if (answerCheck s.answers A Q).isSome then s.nextAnswerId else s.nextAnswerId + 1)
      s.attempts so).1.attempts
      = (if (finishSubmit attempt A (gradeAnswer s.questions question resp skip j) answers'
            (if (answerCheck s.answers A Q).isSome then s.nextAnswerId else s.nextAnswerId + 1)
            s.attempts so).2.completed && !attempt.completed
         then s.attempts.map (fun a =>
             if a.id == attempt.id then { a with completed := true } else a)
         else s.attempts) := rfl
  refine ⟨?_, attempt, hfa, rfl, rfl, hle2, ?_, ?_⟩
  · intro a ha hac
    rw [hatts]
    by_cases hb : ((finishSubmit attempt A (gradeAnswer s.questions question resp skip j) answers'
        (if (answerCheck s.answers A Q).isSome then s.nextAnswerId else s.nextAnswerId + 1)
        s.attempts so).2.completed && !attempt.completed) = true
    · rw [if_pos hb]
      refine ⟨if a.id == attempt.id then { a with completed := true } else a,
        List.mem_map_of_mem _ ha, ?_, ?_⟩
      · by_cases hid : (a.id == attempt.id) = true <;> simp [hid]
      · by_cases hid : (a.id == attempt.id) = true <;> simp [hid, hac]
    · rw [if_neg hb]
      exact ⟨a, ha, rfl, hac⟩
  · constructor
    · intro h
      have h0 : (decide (0 < (finishSubmit attempt A (gradeAnswer s.questions question resp skip j) answers'
          (if (answerCheck s.answers A Q).isSome then s.nextAnswerId else s.nextAnswerId + 1)
          s.attempts so).2.total)
          && decide ((finishSubmit attempt A (gradeAnswer s.questions question resp skip j) answers'
          (if (answerCheck s.answers A Q).isSome then s.nextAnswerId else s.nextAnswerId + 1)
          s.attempts so).2.total
            ≤ (finishSubmit attempt A (gradeAnswer s.questions question resp skip j) answers'
          (if (answerCheck s.answers A Q).isSome then s.nextAnswerId else s.nextAnswerId + 1)
          s.attempts so).2.answered)) = true := h
      simp only [Bool.and_eq_true, decide_eq_true_eq] at h0
      exact ⟨h0.1, le_antisymm hle2 h0.2⟩
    · rintro ⟨h1, h2⟩
      show (decide _ && decide _) = true
      simp only [Bool.and_eq_true, decide_eq_true_eq]
      exact ⟨h1, le_of_eq h2.symm⟩
  · rw [hatts]
    by_cases hb : ((finishSubmit attempt A (gradeAnswer s.questions question resp skip j) answers'
        (if (answerCheck s.answers A Q).isSome then s.nextAnswerId else s.nextAnswerId + 1)
        s.attempts so).2.completed && !attempt.completed) = true
    · rw [if_pos hb, if_pos hb]
    · rw [if_neg hb, if_neg hb]

/-- Witness for Claim C2 at a concrete completing submission. -/
theorem C2_witness :
    (∀ a ∈ c2Store.attempts, a.completed = true →
        ∃ a' ∈ c2Out.1.attempts, a'.id = a.id ∧ a'.completed = true)
    ∧ ∃ attempt, c2Store.attempts.find? (fun a => a.id == 1) = some attempt
      ∧ c2Out.2.total = countTotal c2Out.1 attempt.testId
      ∧ c2Out.2.answered = countAnswered c2Out.1 1
      ∧ c2Out.2.answered ≤ c2Out.2.total
      ∧ (c2Out.2.completed = true ↔ 0 < c2Out.2.total ∧ c2Out.2.answered = c2Out.2.total)
      ∧ (if c2Out.2.completed && !attempt.completed
         then c2Out.1.attempts = c2Store.attempts.map (fun a =>
             if a.id == attempt.id then { a with completed := true } else a)
         else c2Out.1.attempts = c2Store.attempts) :=
  C2_completion_monotonic c2Store "u" 1 1 (some "B") false .threw none c2Out rfl
    (by decide) (by decide)
    (fun a0 h0 r hr hra => absurd hr (List.not_mem_nil r))

end Wurlo
